import Mathlib

/-!
# sched-bench: the Markov ON/OFF load generator of `client/client.go`

A shallow embedding of `main`, `runClient` and `doRequests`.

* The fields of `statsInfo` and the counters of `doRequests` are Go `int64`
  and `int` (64 bits wide on amd64 and arm64): every `+=` and `++` is followed
  by `wrap64`, the reduction to 64-bit two's complement.
* Instants are integers in nanoseconds. `Time.Add` of an `int64` duration
  does not wrap (a `Time` holds seconds and nanoseconds apart) and `Time.Sub`
  saturates; both are modelled so.
* A `float64` is taken as the rational it denotes, and the division and the
  product of `distuv.Exponential.Rand() * 10000000.0` as exact: the rounding
  of the last bits is not modelled. The conversion `time.Duration(x)`
  truncates toward zero and, when the result does not fit, gives the smallest
  `int64`, as on amd64; so does the conversion of the infinity or NaN that a
  rate of zero produces.
* The outside world is an `Env`: how much time passes before each reading of
  the clock, the outcome of each `client.Get`, the successive values of
  `time.Duration(dist.Rand() * 10000000.0)` for the ON and OFF sources, and
  the instant at which the context of `main` is cancelled.
* The worker's view of the world is a `World`: the current instant and how
  many readings, requests, draws and how much sleeping it has done so far.
* Loops that need not terminate take a fuel argument and return the state
  they reached together with a result that says whether they returned.
-/

namespace SchedBench

/-! ## Machine integers -/

/-- The smallest `int64`. -/
def minInt64 : Int := -9223372036854775808

/-- The largest `int64`. -/
def maxInt64 : Int := 9223372036854775807

/-- The value an `int64` (or a 64-bit `int`) holds after an arithmetic
operation whose exact result is `x`: `x` reduced modulo 2^64 into the range
from `minInt64` to `maxInt64`. -/
def wrap64 (x : Int) : Int :=
  (x + 9223372036854775808) % 18446744073709551616 - 9223372036854775808

/-- The integer `x` is the value of some `int64`. -/
def inInt64 (x : Int) : Prop :=
  minInt64 ≤ x ∧ x ≤ maxInt64

instance (x : Int) : Decidable (inInt64 x) := by
  unfold inInt64
  infer_instance

/-! ## Data model -/

/-- The record `statsInfo` (client.go, lines 20-25). -/
structure statsInfo where
  OnTime : Int
  OffTime : Int
  Requests : Int
  ExecutionTime : Int
deriving DecidableEq, Repr

/-- A transport error returned by `client.Get`. -/
structure TransportError where
  code : Nat
deriving DecidableEq, Repr

/-- Everything a worker does not control. Instants and durations are in
nanoseconds. -/
structure Env where
  /-- Time that passes before the k-th reading of the clock (k = 0, 1, ...);
  a natural number, so the clock never goes back. -/
  gap : Nat → Nat
  /-- Outcome of the k-th call of `client.Get`: `none` is a response (of any
  status), `some err` a transport error. -/
  get : Nat → Option TransportError
  /-- The k-th value of `time.Duration(distOn.Rand() * 10000000.0)`. -/
  onDraw : Nat → Int
  /-- The k-th value of `time.Duration(distOff.Rand() * 10000000.0)`. -/
  offDraw : Nat → Int
  /-- The instant at which `ctx.Done()` is closed. -/
  cancelAt : Int

/-- What a worker has done so far. -/
structure World where
  /-- The current instant. -/
  now : Int
  /-- Number of readings of the clock taken. -/
  reads : Nat
  /-- Number of calls of `client.Get` made. -/
  gets : Nat
  /-- Number of ON durations drawn. -/
  onDraws : Nat
  /-- Number of OFF durations drawn. -/
  offDraws : Nat
  /-- Total time spent inside `time.Sleep`. -/
  slept : Int
deriving DecidableEq, Repr

/-- The world of a worker that has not done anything yet, at instant `t`. -/
def World.start (t : Int) : World :=
  { now := t, reads := 0, gets := 0, onDraws := 0, offDraws := 0, slept := 0 }

/-! ## Library calls -/

/-- Go `time.Now()`: some time passes, then the clock is read. -/
def timeNow (e : Env) (w : World) : Int × World :=
  (w.now + e.gap w.reads, { w with now := w.now + e.gap w.reads, reads := w.reads + 1 })

/-- Go `time.Sleep(d)`: the goroutine pauses for `d`; a zero or negative `d`
returns immediately. -/
def timeSleep (w : World) (d : Int) : World :=
  { w with now := w.now + max d 0, slept := w.slept + max d 0 }

/-- The `case <-ctx.Done()` of a `select` with a `default`: taken when the
context has been cancelled by now. -/
def ctxDone (e : Env) (w : World) : Bool :=
  decide (e.cancelAt ≤ w.now)

/-- Go `t.Sub(u)`, the duration behind `time.Since(u)`: the difference of the
two instants, kept within the range of `int64`. -/
def timeSub (t u : Int) : Int :=
  max minInt64 (min maxInt64 (t - u))

/-- Go `Duration.Milliseconds()`: integer division by 1e6, truncated toward
zero. -/
def milliseconds (d : Int) : Int :=
  Int.tdiv d 1000000

/-- The conversion of a `float64` to `int64` (`time.Duration(x)`): the value
truncated toward zero when that fits, the smallest `int64` when it does
not. -/
def float64ToInt64 (x : Rat) : Int :=
  if minInt64 ≤ Int.tdiv x.num x.den ∧ Int.tdiv x.num x.den ≤ maxInt64 then
    Int.tdiv x.num x.den
  else minInt64

/-- The expression `time.Duration(dist.Rand() * 10000000.0)` of lines 117 and
129 for `dist = distuv.Exponential{Rate: rate}`, whose `Rand()` is
`rand.ExpFloat64() / rate`; `variate` is the value of `rand.ExpFloat64()`.
With a rate of zero the quotient is an infinity or NaN, which converts to the
smallest `int64`. -/
def drawDuration (variate rate : Rat) : Int :=
  if rate = 0 then minInt64 else float64ToInt64 (variate / rate * 10000000)

/-- What a worker receives from the random source, the clock and the
network. -/
structure Source where
  /-- The k-th value of `rand.ExpFloat64()` used by `distOn`. -/
  onVariate : Nat → Rat
  /-- The k-th value of `rand.ExpFloat64()` used by `distOff`. -/
  offVariate : Nat → Rat
  /-- Time that passes before the k-th reading of the clock. -/
  gap : Nat → Nat
  /-- Outcome of the k-th call of `client.Get`. -/
  get : Nat → Option TransportError

/-- The environment of `runClient(ctx, on, off, url, stats)`: the draws are
those of the two exponential sources of rates `on` and `off`, and `cancelAt`
is the instant at which `ctx` is cancelled. -/
def Env.ofRates (cancelAt : Int) (onRate offRate : Rat) (src : Source) : Env :=
  { gap := src.gap, get := src.get,
    onDraw := fun k => drawDuration (src.onVariate k) onRate,
    offDraw := fun k => drawDuration (src.offVariate k) offRate,
    cancelAt := cancelAt }

/-! ## `doRequests` (client.go, lines 136-162) -/

/-- The `for !time.Now().After(deadline)` loop of `doRequests`, with the
running values of `requests` and `totalTime`. The result is `none` when the
fuel ran out inside the loop, and otherwise the triple that `doRequests`
returns: `(requests, totalTime, nil)` or `(-1, 0, err)`. -/
def doRequestsLoop (e : Env) (deadline : Int) :
    Nat → World → Int → Int → World × Option (Int × Int × Option TransportError)
  | 0, w, _, _ => (w, none)
  | fuel + 1, w, requests, totalTime =>
    let c := timeNow e w
    if deadline < c.1 then
      (c.2, some (requests, totalTime, none))
    else
      let requestStart := timeNow e c.2
      let w3 : World := { requestStart.2 with gets := requestStart.2.gets + 1 }
      match e.get requestStart.2.gets with
      | some err => (w3, some (-1, 0, some err))
      | none =>
        let fin := timeNow e w3
        doRequestsLoop e deadline fuel fin.2 (wrap64 (requests + 1))
          (wrap64 (totalTime + milliseconds (timeSub fin.1 requestStart.1)))

/-- Go `doRequests(client, onTime, url)`. -/
def doRequests (e : Env) (fuel : Nat) (w : World) (onTime : Int) :
    World × Option (Int × Int × Option TransportError) :=
  let start := timeNow e w
  doRequestsLoop e (start.1 + onTime) fuel start.2 0 0

/-! ## `runClient` (client.go, lines 89-134) -/

/-- How one pass through the `default` branch of `runClient` ends. -/
inductive Step where
  /-- The fuel ran out inside the burst. -/
  | starved
  /-- The burst failed: `return err`. -/
  | fail (err : TransportError)
  /-- The pass reached the end of the branch; the `for` loop goes round. -/
  | next
deriving DecidableEq, Repr

/-- The `default` branch of the `select` in `runClient` (lines 116-131): one
ON burst followed by one OFF sleep. -/
def runClientCycle (e : Env) (fuel : Nat) (w : World) (stats : statsInfo) :
    World × statsInfo × Step :=
  let onTime := e.onDraw w.onDraws
  let r := doRequests e fuel { w with onDraws := w.onDraws + 1 } onTime
  match r.2 with
  | none => (r.1, stats, Step.starved)
  | some (_, _, some err) => (r.1, stats, Step.fail err)
  | some (requests, requestTime, none) =>
    let offTime := e.offDraw r.1.offDraws
    (timeSleep { r.1 with offDraws := r.1.offDraws + 1 } offTime,
     { OnTime := wrap64 (stats.OnTime + onTime),
       OffTime := wrap64 (stats.OffTime + offTime),
       Requests := wrap64 (stats.Requests + requests),
       ExecutionTime := wrap64 (stats.ExecutionTime + requestTime) },
     Step.next)

/-- Whether `runClient` has returned, and what. -/
inductive Outcome where
  /-- The fuel ran out: the worker is still running. -/
  | running
  /-- The call returned `err` (`none` is Go `nil`). -/
  | returned (err : Option TransportError)
deriving DecidableEq, Repr

/-- The `for { select { ... } }` loop of `runClient`. -/
def runClientLoop (e : Env) : Nat → World → statsInfo → World × statsInfo × Outcome
  | 0, w, stats => (w, stats, Outcome.running)
  | fuel + 1, w, stats =>
    if ctxDone e w then
      (w, stats, Outcome.returned none)
    else
      let c := runClientCycle e fuel w stats
      match c.2.2 with
      | Step.starved => (c.1, c.2.1, Outcome.running)
      | Step.fail err => (c.1, c.2.1, Outcome.returned (some err))
      | Step.next => runClientLoop e fuel c.1 c.2.1

/-- Go `runClient(ctx, on, off, url, stats)`, started at instant `t0`. -/
def runClient (e : Env) (fuel : Nat) (t0 : Int) (stats : statsInfo) :
    World × statsInfo × Outcome :=
  runClientLoop e fuel (World.start t0) stats

/-- The fuel, the world and the record at the top of the last pass of the
loop of `runClient` that the run entered: the pass that was still running, or
that failed, when the run stopped. -/
def lastCycle (e : Env) : Nat → World → statsInfo → Nat × World × statsInfo
  | 0, w, stats => (0, w, stats)
  | fuel + 1, w, stats =>
    if ctxDone e w then
      (fuel, w, stats)
    else
      match (runClientCycle e fuel w stats).2.2 with
      | Step.next =>
        lastCycle e fuel (runClientCycle e fuel w stats).1 (runClientCycle e fuel w stats).2.1
      | _ => (fuel, w, stats)

/-! ## `main` (client.go, lines 27-87) -/

/-- The flags of `main` that the engine uses. -/
structure Config where
  /-- Flag `threads`. -/
  threads : Int
  /-- Flag `on`. -/
  onRate : Rat
  /-- Flag `off`. -/
  offRate : Rat
  /-- Flag `duration`, in nanoseconds. -/
  duration : Int

/-- How the start of `main` (lines 37-60) ends. -/
inductive Startup where
  /-- `make([]*statsInfo, threads)` panics: the length is out of range. -/
  | panicked
  /-- The loop of line 54 started this many goroutines running `runClient`. -/
  | spawned (workers : Nat)
deriving DecidableEq, Repr

/-- The start of `main`: the flags are taken as they come, the slice of
records is allocated and one goroutine per thread is started. The allocation
panics when the length is negative or above `maxLen`, the largest length for
which `make([]*statsInfo, n)` succeeds. -/
def mainSpawn (maxLen : Nat) (threads : Int) (_onRate _offRate : Rat) : Startup :=
  if threads < 0 ∨ (maxLen : Int) < threads then Startup.panicked
  else Startup.spawned threads.toNat

/-- Whether the start of `main` failed. -/
def Startup.failed : Startup → Bool
  | Startup.panicked => true
  | Startup.spawned _ => false

/-- The number of workers started. -/
def Startup.workers : Startup → Nat
  | Startup.panicked => 0
  | Startup.spawned n => n

/-- The record `statsInfo{}`. -/
def statsInfo.zero : statsInfo :=
  { OnTime := 0, OffTime := 0, Requests := 0, ExecutionTime := 0 }

/-- One step of the loop of lines 69-74. -/
def addStats (total s : statsInfo) : statsInfo :=
  { OnTime := wrap64 (total.OnTime + s.OnTime),
    OffTime := wrap64 (total.OffTime + s.OffTime),
    Requests := wrap64 (total.Requests + s.Requests),
    ExecutionTime := wrap64 (total.ExecutionTime + s.ExecutionTime) }

/-- The total of lines 68-74: `total := &statsInfo{}` and the loop over
`stats`. -/
def mainTotal (stats : List statsInfo) : statsInfo :=
  stats.foldl addStats { OnTime := 0, OffTime := 0, Requests := 0, ExecutionTime := 0 }

/-- A floating-point division `float64(num) / float64(den)` of two integers,
kept as its operands. -/
structure FloatDiv where
  num : Int
  den : Int
deriving DecidableEq, Repr

/-- The lines printed by lines 76-80. -/
structure Report where
  /-- Line 76: `float64(total.ExecutionTime)/float64(total.Requests)*1000`. -/
  latency : FloatDiv
  /-- Line 77: `total.Requests`. -/
  requests : Int
  /-- Line 78: `float64(total.Requests)/time.Since(start).Seconds()`, the
  elapsed time kept in nanoseconds. -/
  rate : FloatDiv
  /-- Line 79: `float64(total.OnTime)/float64(threads)/1000000.0`. -/
  onAverage : FloatDiv
  /-- Line 80: `float64(total.OffTime)/float64(threads)/1000000.0`. -/
  offAverage : FloatDiv
deriving DecidableEq, Repr

/-- Lines 76-80 of `main`. -/
def mainReport (total : statsInfo) (threads : Int) (elapsed : Int) : Report :=
  { latency := { num := total.ExecutionTime, den := total.Requests },
    requests := total.Requests,
    rate := { num := total.Requests, den := elapsed },
    onAverage := { num := total.OnTime, den := threads },
    offAverage := { num := total.OffTime, den := threads } }

/-- The denominators of the divisions of a report. -/
def Report.denominators (r : Report) : List Int :=
  [r.latency.den, r.rate.den, r.onAverage.den, r.offAverage.den]

/-- How `main` ends. -/
inductive MainOutcome where
  /-- Line 51: the allocation of the slice panics; nothing is printed but the
  panic and the process exits with status 2. -/
  | panicked
  /-- Line 62: `g.Wait()` has not returned, a worker is still running. -/
  | waiting
  /-- Lines 63-66: the error is printed and the process exits with status 1. -/
  | exit1 (err : TransportError)
  /-- Lines 68-80: the total is computed and the summary printed. -/
  | summary (total : statsInfo) (report : Report)
deriving DecidableEq, Repr

/-- Go `g.Wait()` of errgroup: the first non-nil error returned by a
goroutine, `errs` listing what the goroutines returned in the order in which
they returned. -/
def groupWait (errs : List (Option TransportError)) : Option TransportError :=
  errs.findSome? id

/-- Lines 62-80 of `main`: every worker has returned, `errs` are the errors
they returned, `stats` the records of the slice `stats`, one per thread, and
the run lasted `elapsed`. -/
def mainAfterWait (stats : List statsInfo) (errs : List (Option TransportError))
    (elapsed : Int) : MainOutcome :=
  match groupWait errs with
  | some err => MainOutcome.exit1 err
  | none =>
    MainOutcome.summary (mainTotal stats) (mainReport (mainTotal stats) stats.length elapsed)

/-- The goroutine of index `i` started by line 57: `runClient` on a fresh
record, with the rates of the flags and a context cancelled `duration` after
the start `t0` of the run. -/
def workerRun (cfg : Config) (srcs : Nat → Source) (fuel : Nat) (t0 : Int) (i : Nat) :
    World × statsInfo × Outcome :=
  runClient (Env.ofRates (t0 + cfg.duration) cfg.onRate cfg.offRate (srcs i)) fuel t0
    statsInfo.zero

/-- The error a worker returned (`none` is Go `nil`). -/
def Outcome.error : Outcome → Option TransportError
  | Outcome.running => none
  | Outcome.returned err => err

/-- The records of the `n` workers, in the order of the slice `stats`. -/
def workerRecords (cfg : Config) (srcs : Nat → Source) (fuel : Nat) (t0 : Int) (n : Nat) :
    List statsInfo :=
  (List.range n).map (fun i => (workerRun cfg srcs fuel t0 i).2.1)

/-- Go `main`: the start, the workers and the end. `order` lists the indices
of the workers in the order in which they returned and `elapsed` is the value
of `time.Since(start)` at line 78. -/
def clientMain (maxLen : Nat) (cfg : Config) (srcs : Nat → Source) (order : List Nat)
    (fuel : Nat) (t0 elapsed : Int) : MainOutcome :=
  match mainSpawn maxLen cfg.threads cfg.onRate cfg.offRate with
  | Startup.panicked => MainOutcome.panicked
  | Startup.spawned n =>
    if (List.range n).all
        (fun i => decide ((workerRun cfg srcs fuel t0 i).2.2 ≠ Outcome.running)) then
      mainAfterWait (workerRecords cfg srcs fuel t0 n)
        (order.map (fun i => (workerRun cfg srcs fuel t0 i).2.2.error)) elapsed
    else MainOutcome.waiting

/-! ## Quantities used in the statements -/

/-- The time measured for the i-th request (i = 0, 1, ...) of the burst of a
cycle that starts in world `w`: what passes between the reading of
`requestStart` and the reading taken by `time.Since(requestStart)`, at most
the largest `int64`. The burst reads the clock once for the deadline and
three times per request. -/
def requestElapsed (e : Env) (w : World) (i : Nat) : Int :=
  min maxInt64 (e.gap (w.reads + 3 * i + 3) : Int)

/-- The sum, over the first `m` requests of the burst of a cycle that starts
in world `w`, of the time measured for each in whole milliseconds. -/
def burstTime (e : Env) (w : World) (m : Nat) : Int :=
  ((List.range m).map (fun i => milliseconds (requestElapsed e w i))).sum

/-- The four fields hold values of `int64`, as those of every record of the
program do. -/
def statsInfo.isInt64 (s : statsInfo) : Prop :=
  inInt64 s.OnTime ∧ inInt64 s.OffTime ∧ inInt64 s.Requests ∧ inInt64 s.ExecutionTime

instance (s : statsInfo) : Decidable (statsInfo.isInt64 s) := by
  unfold statsInfo.isInt64
  infer_instance

/-- Field by field, `a` is at most `b`. -/
def statsInfo.le (a b : statsInfo) : Prop :=
  a.OnTime ≤ b.OnTime ∧ a.OffTime ≤ b.OffTime ∧ a.Requests ≤ b.Requests ∧
    a.ExecutionTime ≤ b.ExecutionTime

instance (a b : statsInfo) : Decidable (statsInfo.le a b) := by
  unfold statsInfo.le
  infer_instance

/-- The world at the end of the ON burst of the cycle that starts in `w`. -/
def burstEnd (e : Env) (fuel : Nat) (w : World) : World :=
  (doRequests e fuel { w with onDraws := w.onDraws + 1 } (e.onDraw w.onDraws)).1

/-- What the burst of the cycle that starts in `w` returns. -/
def burstResult (e : Env) (fuel : Nat) (w : World) : Option (Int × Int × Option TransportError) :=
  (doRequests e fuel { w with onDraws := w.onDraws + 1 } (e.onDraw w.onDraws)).2

/-- The number of requests issued by the burst of the cycle that starts in
`w`. -/
def burstRequests (e : Env) (fuel : Nat) (w : World) : Nat :=
  (burstEnd e fuel w).gets - w.gets

/-- None of the four additions of the cycle that starts in `w` overflows: the
exact new value of each field is the value of an `int64`. -/
def cycleFits (e : Env) (fuel : Nat) (w : World) (stats : statsInfo) : Prop :=
  inInt64 (stats.OnTime + e.onDraw w.onDraws) ∧
  inInt64 (stats.OffTime + e.offDraw w.offDraws) ∧
  inInt64 (stats.Requests + (burstRequests e fuel w : Int)) ∧
  inInt64 (stats.ExecutionTime + burstTime e w (burstRequests e fuel w))

instance (e : Env) (fuel : Nat) (w : World) (stats : statsInfo) :
    Decidable (cycleFits e fuel w stats) := by
  unfold cycleFits
  infer_instance

/-- No addition overflows in any cycle of the run of `runClientLoop`. -/
def runFits (e : Env) : Nat → World → statsInfo → Bool
  | 0, _, _ => true
  | fuel + 1, w, stats =>
    ctxDone e w ||
      (decide (cycleFits e fuel w stats) &&
        match (runClientCycle e fuel w stats).2.2 with
        | Step.next =>
          runFits e fuel (runClientCycle e fuel w stats).1 (runClientCycle e fuel w stats).2.1
        | _ => true)

/-! ## Concrete environments -/

/-- The clock advances by 1 ns at each reading, the bursts last 10 ns, and
the third request fails. -/
def thirdCallFails : Env :=
  { gap := fun _ => 1, get := fun k => if k = 2 then some { code := 7 } else none,
    onDraw := fun _ => 10, offDraw := fun _ => 5, cancelAt := 1000 }

/-- As `thirdCallFails` with bursts of 2 ns, which issue one request each:
the third request is the first of the third burst. -/
def thirdBurstFails : Env :=
  { gap := fun _ => 1, get := fun k => if k = 2 then some { code := 7 } else none,
    onDraw := fun _ => 2, offDraw := fun _ => 5, cancelAt := 1000 }

/-- Requests of 3 ms each, bursts of 20 ms, sleeps of 5 ms, a run of 100 ms. -/
def steadyEnv : Env :=
  { gap := fun _ => 3000000, get := fun _ => none,
    onDraw := fun _ => 20000000, offDraw := fun _ => 5000000, cancelAt := 100000000 }

/-- The clock does not advance between the reading that sets the deadline and
the first reading of the loop (readings 0 and 1); the ON duration drawn is 0. -/
def tieEnv : Env :=
  { gap := fun k => if k = 1 then 0 else 1, get := fun _ => none,
    onDraw := fun _ => 0, offDraw := fun _ => 5, cancelAt := 100 }

/-- The ON duration drawn is negative. -/
def negativeOnEnv : Env :=
  { gap := fun k => if k = 1 then 0 else 1, get := fun _ => none,
    onDraw := fun _ => -3, offDraw := fun _ => 5, cancelAt := 100 }

/-- The first burst runs from instant 1 to instant 14; the context is
cancelled at instant 4, inside the burst. -/
def cancelDuringOn : Env :=
  { gap := fun _ => 1, get := fun _ => none,
    onDraw := fun _ => 10, offDraw := fun _ => 5, cancelAt := 4 }

/-- The first burst ends at instant 14 and the sleep of 5 ns that follows at
instant 19; the context is cancelled at instant 16, inside the sleep. -/
def cancelDuringOff : Env :=
  { gap := fun _ => 1, get := fun _ => none,
    onDraw := fun _ => 10, offDraw := fun _ => 5, cancelAt := 16 }

/-- Every variate is 1, the clock advances by 1 ns at each reading and every
request succeeds. -/
def unitSource : Source :=
  { onVariate := fun _ => 1, offVariate := fun _ => 1, gap := fun _ => 1,
    get := fun _ => none }

/-- Variates of 1, requests of 3 ms each, no failure. -/
def steadySource : Source :=
  { onVariate := fun _ => 1, offVariate := fun _ => 1, gap := fun _ => 3000000,
    get := fun _ => none }

/-- As `steadySource`, but the first request fails. -/
def failingSource : Source :=
  { onVariate := fun _ => 1, offVariate := fun _ => 1, gap := fun _ => 3000000,
    get := fun k => if k = 0 then some { code := 7 } else none }

/-- The flags `-threads 2 -on 8.881784197001252e-16 -off 0.5 -duration 10ms`:
the ON rate is 2^-50, a positive `float64`, and each ON sample of variate 1 is
2^50 * 10^7 nanoseconds, above the largest `int64`. -/
def tinyRateConfig : Config :=
  { threads := 2, onRate := 1 / 1125899906842624, offRate := 1 / 2, duration := 10000000 }

/-- As `tinyRateConfig` with one thread and a duration of 30 ms: two cycles. -/
def tinyRateTwoCycles : Config :=
  { threads := 1, onRate := 1 / 1125899906842624, offRate := 1 / 2, duration := 30000000 }

/-- The flags `-threads 2 -on 0.5 -off 2 -duration 100ms`: ON samples of
20 ms and OFF samples of 5 ms for variates of 1. -/
def steadyConfig : Config :=
  { threads := 2, onRate := 1 / 2, offRate := 2, duration := 100000000 }

/-- The flags `-threads -1`, the others at their defaults. -/
def negativeThreadsConfig : Config :=
  { threads := -1, onRate := 3 / 10, offRate := 4 / 5, duration := 30000000000 }

/-! ## Lemmas on machine integers and library calls -/

theorem wrap64_of_inInt64 {x : Int} (h : inInt64 x) : wrap64 x = x := by
  unfold inInt64 minInt64 maxInt64 at h
  unfold wrap64
  omega

theorem wrap64_add_left (a b : Int) : wrap64 (wrap64 a + b) = wrap64 (a + b) := by
  unfold wrap64
  omega

theorem wrap64_add_right (a b : Int) : wrap64 (a + wrap64 b) = wrap64 (a + b) := by
  unfold wrap64
  omega

theorem wrap64_idem (a : Int) : wrap64 (wrap64 a) = wrap64 a := by
  unfold wrap64
  omega

theorem wrap64_zero : wrap64 0 = 0 := by
  decide

theorem milliseconds_nonneg {d : Int} (h : 0 ≤ d) : 0 ≤ milliseconds d :=
  Int.tdiv_nonneg h (by decide)

theorem timeNow_fst (e : Env) (w : World) : (timeNow e w).1 = w.now + e.gap w.reads := rfl

theorem timeNow_snd (e : Env) (w : World) :
    (timeNow e w).2 = { w with now := w.now + e.gap w.reads, reads := w.reads + 1 } := rfl

/-- The duration between two readings of the clock with `g` in between. -/
theorem timeSub_gap (a : Int) (g : Nat) : timeSub (a + (g : Int)) a = min maxInt64 (g : Int) := by
  unfold timeSub
  have hg := Int.natCast_nonneg g
  have h1 : a + (g : Int) - a = (g : Int) := by omega
  rw [h1]
  have h2 : minInt64 ≤ min maxInt64 (g : Int) := by
    unfold minInt64 maxInt64
    omega
  exact max_eq_right h2

theorem requestElapsed_nonneg (e : Env) (w : World) (i : Nat) : 0 ≤ requestElapsed e w i := by
  unfold requestElapsed maxInt64
  have := Int.natCast_nonneg (e.gap (w.reads + 3 * i + 3))
  omega

theorem burstTime_nonneg (e : Env) (w : World) (m : Nat) : 0 ≤ burstTime e w m := by
  unfold burstTime
  apply List.sum_nonneg
  intro x hx
  simp only [List.mem_map, List.mem_range] at hx
  obtain ⟨i, _, rfl⟩ := hx
  exact milliseconds_nonneg (requestElapsed_nonneg e w i)

/-- The sum of the first `m + 1` terms, the first term apart. -/
theorem sum_range_succ_shift (f : Nat → Int) (m : Nat) :
    ((List.range (m + 1)).map f).sum = f 0 + ((List.range m).map (fun i => f (i + 1))).sum := by
  rw [List.range_succ_eq_map, List.map_cons, List.sum_cons, List.map_map]
  rfl

/-! ## Lemmas on `doRequests` -/

/-- A burst that returns without error issued some number `m` of requests:
it returns the running count plus `m` and the running time plus the sum of the
times of the `m` requests in milliseconds, both as 64-bit values, and has read
the clock `3 * m + 1` times. -/
theorem doRequestsLoop_ok (e : Env) (deadline : Int) :
    ∀ (fuel : Nat) (w : World) (requests totalTime : Int) (w' : World) (r t : Int),
      wrap64 requests = requests → wrap64 totalTime = totalTime →
      doRequestsLoop e deadline fuel w requests totalTime = (w', some (r, t, none)) →
      ∃ m : Nat, w'.gets = w.gets + m ∧ r = wrap64 (requests + m) ∧
        t = wrap64 (totalTime +
          ((List.range m).map
            (fun i => milliseconds (min maxInt64 (e.gap (w.reads + 3 * i + 2) : Int)))).sum) ∧
        w'.reads = w.reads + 3 * m + 1 ∧
        w'.onDraws = w.onDraws ∧ w'.offDraws = w.offDraws ∧ w'.slept = w.slept ∧
        deadline < w'.now := by
  intro fuel
  induction fuel with
  | zero =>
    intro w requests totalTime w' r t _ _ h
    simp [doRequestsLoop] at h
  | succ fuel ih =>
    intro w requests totalTime w' r t hreq htot h
    rw [doRequestsLoop] at h
    simp only [timeNow_fst, timeNow_snd] at h
    split at h
    · rename_i hlt
      simp only [Prod.mk.injEq, Option.some.injEq, and_true] at h
      obtain ⟨hw, hr, ht⟩ := h
      subst hw hr ht
      refine ⟨0, by simp, by simpa using hreq.symm, by simpa using htot.symm, by simp,
        rfl, rfl, rfl, hlt⟩
    · split at h
      · simp at h
      · obtain ⟨m, hg, hr, ht, hreads, hon, hoff, hsl, hdl⟩ :=
          ih _ _ _ _ _ _ (wrap64_idem _) (wrap64_idem _) h
        simp only at hg hreads hon hoff hsl
        refine ⟨m + 1, by omega, ?_, ?_, by omega, hon, hoff, hsl, hdl⟩
        · rw [hr, wrap64_add_left]
          congr 1
          push_cast
          ring
        · rw [ht, wrap64_add_left, sum_range_succ_shift, timeSub_gap]
          have hidx : ∀ i : Nat, w.reads + 1 + 1 + 1 + 3 * i + 2 = w.reads + 3 * (i + 1) + 2 := by
            intro i; omega
          simp only [hidx, mul_zero, add_zero]
          congr 1
          ring

/-- Whatever a burst does, the count of requests and the clock only grow and
the draws and the sleeping are untouched. -/
theorem doRequestsLoop_frame (e : Env) (deadline : Int) :
    ∀ (fuel : Nat) (w : World) (requests totalTime : Int),
      w.gets ≤ (doRequestsLoop e deadline fuel w requests totalTime).1.gets ∧
      w.now ≤ (doRequestsLoop e deadline fuel w requests totalTime).1.now ∧
      (doRequestsLoop e deadline fuel w requests totalTime).1.onDraws = w.onDraws ∧
      (doRequestsLoop e deadline fuel w requests totalTime).1.offDraws = w.offDraws ∧
      (doRequestsLoop e deadline fuel w requests totalTime).1.slept = w.slept := by
  intro fuel
  induction fuel with
  | zero =>
    intro w requests totalTime
    simp [doRequestsLoop]
  | succ fuel ih =>
    intro w requests totalTime
    rw [doRequestsLoop]
    simp only [timeNow_fst, timeNow_snd]
    split
    · simp
    · split
      · simp
        omega
      · rename_i hget
        obtain ⟨h1, h2, h3, h4, h5⟩ := ih
          { now := w.now + (e.gap w.reads : Int) + (e.gap (w.reads + 1) : Int)
              + (e.gap (w.reads + 1 + 1) : Int),
            reads := w.reads + 1 + 1 + 1, gets := w.gets + 1, onDraws := w.onDraws,
            offDraws := w.offDraws, slept := w.slept }
          (wrap64 (requests + 1))
          (wrap64 (totalTime + milliseconds
            (timeSub (w.now + (e.gap w.reads : Int) + (e.gap (w.reads + 1) : Int)
              + (e.gap (w.reads + 1 + 1) : Int))
              (w.now + (e.gap w.reads : Int) + (e.gap (w.reads + 1) : Int)))))
        simp only at h1 h2 h3 h4 h5
        refine ⟨by omega, by omega, h3, h4, h5⟩

/-- A cycle that reaches its end: the burst returned `(requests, requestTime,
nil)` and the world and the record are the ones after the OFF sleep. -/
theorem runClientCycle_next (e : Env) (fuel : Nat) (w : World) (stats : statsInfo)
    (h : (runClientCycle e fuel w stats).2.2 = Step.next) :
    ∃ requests requestTime : Int,
      burstResult e fuel w = some (requests, requestTime, none) ∧
      (runClientCycle e fuel w stats).1 =
        timeSleep { burstEnd e fuel w with offDraws := (burstEnd e fuel w).offDraws + 1 }
          (e.offDraw (burstEnd e fuel w).offDraws) ∧
      (runClientCycle e fuel w stats).2.1 =
        { OnTime := wrap64 (stats.OnTime + e.onDraw w.onDraws),
          OffTime := wrap64 (stats.OffTime + e.offDraw (burstEnd e fuel w).offDraws),
          Requests := wrap64 (stats.Requests + requests),
          ExecutionTime := wrap64 (stats.ExecutionTime + requestTime) } := by
  unfold runClientCycle at h ⊢
  unfold burstResult burstEnd
  simp only at h ⊢
  split at h
  · simp at h
  · simp at h
  · rename_i requests requestTime heq
    refine ⟨requests, requestTime, heq, ?_, ?_⟩ <;> simp [heq]

/-- A cycle whose burst fails or runs out of fuel leaves the record as it
was. -/
theorem runClientCycle_not_next (e : Env) (fuel : Nat) (w : World) (stats : statsInfo)
    (h : (runClientCycle e fuel w stats).2.2 ≠ Step.next) :
    (runClientCycle e fuel w stats).2.1 = stats ∧
      (runClientCycle e fuel w stats).1 = burstEnd e fuel w := by
  unfold runClientCycle at h ⊢
  unfold burstEnd
  simp only at h ⊢
  split
  · simp
  · simp
  · rename_i requests requestTime heq
    simp [heq] at h

/-- The burst of a cycle, seen from the world the cycle starts in. -/
theorem burst_frame (e : Env) (fuel : Nat) (w : World) :
    w.gets ≤ (burstEnd e fuel w).gets ∧
      w.now + (e.gap w.reads : Int) ≤ (burstEnd e fuel w).now ∧
      (burstEnd e fuel w).onDraws = w.onDraws + 1 ∧
      (burstEnd e fuel w).offDraws = w.offDraws ∧ (burstEnd e fuel w).slept = w.slept := by
  unfold burstEnd doRequests
  obtain ⟨h1, h2, h3, h4, h5⟩ := doRequestsLoop_frame e
    ((timeNow e { w with onDraws := w.onDraws + 1 }).1 + e.onDraw w.onDraws) fuel
    (timeNow e { w with onDraws := w.onDraws + 1 }).2 0 0
  simp only [timeNow_fst, timeNow_snd] at h1 h2 h3 h4 h5 ⊢
  exact ⟨h1, h2, h3, h4, h5⟩

/-- A burst that returns without error, seen from the world the cycle starts
in: the number of requests issued and the sum of their times, as 64-bit
values. -/
theorem burst_ok (e : Env) (fuel : Nat) (w : World) (r t : Int)
    (h : burstResult e fuel w = some (r, t, none)) :
    r = wrap64 (burstRequests e fuel w : Int) ∧
      t = wrap64 (burstTime e w (burstRequests e fuel w)) := by
  unfold burstResult doRequests at h
  unfold burstRequests burstEnd doRequests
  have hpair : doRequestsLoop e
      ((timeNow e { w with onDraws := w.onDraws + 1 }).1 + e.onDraw w.onDraws) fuel
      (timeNow e { w with onDraws := w.onDraws + 1 }).2 0 0 =
      ((doRequestsLoop e
        ((timeNow e { w with onDraws := w.onDraws + 1 }).1 + e.onDraw w.onDraws) fuel
        (timeNow e { w with onDraws := w.onDraws + 1 }).2 0 0).1, some (r, t, none)) := by
    rw [← h]
  obtain ⟨m, hg, hr, ht, _⟩ :=
    doRequestsLoop_ok e _ fuel _ 0 0 _ r t wrap64_zero wrap64_zero hpair
  simp only [timeNow_snd] at hg ht
  have hm : (doRequestsLoop e
        ((timeNow e { w with onDraws := w.onDraws + 1 }).1 + e.onDraw w.onDraws) fuel
        (timeNow e { w with onDraws := w.onDraws + 1 }).2 0 0).1.gets - w.gets = m := by
    simp only [timeNow_snd]
    omega
  simp only [hm]
  refine ⟨by rw [hr, zero_add], ?_⟩
  rw [ht, zero_add]
  congr 1
  unfold burstTime requestElapsed
  have hidx : ∀ i : Nat, w.reads + 1 + 3 * i + 2 = w.reads + 3 * i + 3 := by
    intro i; omega
  simp only [hidx]

/-! ## The total of `main` -/

/-- The loop of lines 69-74 started from any running total that holds 64-bit
values. -/
theorem foldl_addStats (stats : List statsInfo) :
    ∀ t : statsInfo, wrap64 t.OnTime = t.OnTime → wrap64 t.OffTime = t.OffTime →
      wrap64 t.Requests = t.Requests → wrap64 t.ExecutionTime = t.ExecutionTime →
      stats.foldl addStats t =
        { OnTime := wrap64 (t.OnTime + (stats.map statsInfo.OnTime).sum),
          OffTime := wrap64 (t.OffTime + (stats.map statsInfo.OffTime).sum),
          Requests := wrap64 (t.Requests + (stats.map statsInfo.Requests).sum),
          ExecutionTime :=
            wrap64 (t.ExecutionTime + (stats.map statsInfo.ExecutionTime).sum) } := by
  induction stats with
  | nil =>
    intro t h1 h2 h3 h4
    simp [h1, h2, h3, h4]
  | cons s rest ih =>
    intro t _ _ _ _
    rw [List.foldl_cons, ih _ (wrap64_idem _) (wrap64_idem _) (wrap64_idem _) (wrap64_idem _)]
    simp only [addStats, wrap64_add_left, List.map_cons, List.sum_cons, add_assoc]

/-- The total of `main`, field by field. -/
theorem mainTotal_fields (stats : List statsInfo) :
    mainTotal stats =
      { OnTime := wrap64 (stats.map statsInfo.OnTime).sum,
        OffTime := wrap64 (stats.map statsInfo.OffTime).sum,
        Requests := wrap64 (stats.map statsInfo.Requests).sum,
        ExecutionTime := wrap64 (stats.map statsInfo.ExecutionTime).sum } := by
  unfold mainTotal
  rw [foldl_addStats stats _ wrap64_zero wrap64_zero wrap64_zero wrap64_zero]
  simp

/-- C1 (amended): the total computed by `main` has each of its four fields
equal to the sum of that field over the records of the list, each record
counted once, the sum being taken in 64-bit two's-complement arithmetic; the
field is the exact sum whenever the exact sum is the value of an `int64`. -/
theorem mainTotal_wrapped_sums (stats : List statsInfo) :
    (mainTotal stats).OnTime = wrap64 (stats.map statsInfo.OnTime).sum ∧
    (mainTotal stats).OffTime = wrap64 (stats.map statsInfo.OffTime).sum ∧
    (mainTotal stats).Requests = wrap64 (stats.map statsInfo.Requests).sum ∧
    (mainTotal stats).ExecutionTime = wrap64 (stats.map statsInfo.ExecutionTime).sum ∧
    (inInt64 (stats.map statsInfo.OnTime).sum →
      (mainTotal stats).OnTime = (stats.map statsInfo.OnTime).sum) ∧
    (inInt64 (stats.map statsInfo.OffTime).sum →
      (mainTotal stats).OffTime = (stats.map statsInfo.OffTime).sum) ∧
    (inInt64 (stats.map statsInfo.Requests).sum →
      (mainTotal stats).Requests = (stats.map statsInfo.Requests).sum) ∧
    (inInt64 (stats.map statsInfo.ExecutionTime).sum →
      (mainTotal stats).ExecutionTime = (stats.map statsInfo.ExecutionTime).sum) := by
  rw [mainTotal_fields]
  exact ⟨rfl, rfl, rfl, rfl, wrap64_of_inInt64, wrap64_of_inInt64, wrap64_of_inInt64,
    wrap64_of_inInt64⟩

/-! ## The increments of a cycle -/

/-- The world after a cycle that reaches its end has issued the requests of
the burst and no other. -/
theorem runClientCycle_gets (e : Env) (fuel : Nat) (w : World) (stats : statsInfo)
    (h : (runClientCycle e fuel w stats).2.2 = Step.next) :
    (runClientCycle e fuel w stats).1.gets = w.gets + burstRequests e fuel w := by
  obtain ⟨_, _, _, hw, _⟩ := runClientCycle_next e fuel w stats h
  obtain ⟨hg, _⟩ := burst_frame e fuel w
  rw [hw]
  unfold burstRequests
  simp only [timeSleep]
  omega

/-- The record after a cycle that reaches its end. -/
theorem runClientCycle_increments (e : Env) (fuel : Nat) (w : World) (stats : statsInfo)
    (h : (runClientCycle e fuel w stats).2.2 = Step.next) :
    (runClientCycle e fuel w stats).2.1 =
      { OnTime := wrap64 (stats.OnTime + e.onDraw w.onDraws),
        OffTime := wrap64 (stats.OffTime + e.offDraw w.offDraws),
        Requests := wrap64 (stats.Requests + (burstRequests e fuel w : Int)),
        ExecutionTime :=
          wrap64 (stats.ExecutionTime + burstTime e w (burstRequests e fuel w)) } := by
  obtain ⟨r, t, hres, _, hstats⟩ := runClientCycle_next e fuel w stats h
  obtain ⟨hr, ht⟩ := burst_ok e fuel w r t hres
  obtain ⟨_, _, _, hoffd, _⟩ := burst_frame e fuel w
  rw [hstats, hoffd, hr, ht, wrap64_add_right, wrap64_add_right]

/-- C10 (amended): in a cycle of `runClient` that reaches its end (no request
failed), the record changes by four additions in 64-bit two's-complement
arithmetic: to Requests the number of requests issued in the burst, to
ExecutionTime the sum over these requests of the elapsed time of each in whole
milliseconds, to OnTime the drawn ON duration and to OffTime the drawn OFF
duration. Each field grows by exactly that amount whenever the exact new value
is the value of an `int64`, and wraps around otherwise. -/
theorem runClientCycle_wrapped_increments (e : Env) (fuel : Nat) (w : World)
    (stats : statsInfo) (h : (runClientCycle e fuel w stats).2.2 = Step.next) :
    (runClientCycle e fuel w stats).1.gets = w.gets + burstRequests e fuel w ∧
    (runClientCycle e fuel w stats).2.1.Requests =
      wrap64 (stats.Requests + (burstRequests e fuel w : Int)) ∧
    (runClientCycle e fuel w stats).2.1.ExecutionTime =
      wrap64 (stats.ExecutionTime + burstTime e w (burstRequests e fuel w)) ∧
    (runClientCycle e fuel w stats).2.1.OnTime = wrap64 (stats.OnTime + e.onDraw w.onDraws) ∧
    (runClientCycle e fuel w stats).2.1.OffTime =
      wrap64 (stats.OffTime + e.offDraw w.offDraws) ∧
    (inInt64 (stats.Requests + (burstRequests e fuel w : Int)) →
      (runClientCycle e fuel w stats).2.1.Requests =
        stats.Requests + (burstRequests e fuel w : Int)) ∧
    (inInt64 (stats.ExecutionTime + burstTime e w (burstRequests e fuel w)) →
      (runClientCycle e fuel w stats).2.1.ExecutionTime =
        stats.ExecutionTime + burstTime e w (burstRequests e fuel w)) ∧
    (inInt64 (stats.OnTime + e.onDraw w.onDraws) →
      (runClientCycle e fuel w stats).2.1.OnTime = stats.OnTime + e.onDraw w.onDraws) ∧
    (inInt64 (stats.OffTime + e.offDraw w.offDraws) →
      (runClientCycle e fuel w stats).2.1.OffTime = stats.OffTime + e.offDraw w.offDraws) := by
  rw [runClientCycle_increments e fuel w stats h]
  exact ⟨runClientCycle_gets e fuel w stats h, rfl, rfl, rfl, rfl, wrap64_of_inInt64,
    wrap64_of_inInt64, wrap64_of_inInt64, wrap64_of_inInt64⟩

/-! ## Monotonicity of the record of a worker -/

theorem statsInfo.le_refl (a : statsInfo) : statsInfo.le a a :=
  ⟨le_rfl, le_rfl, le_rfl, le_rfl⟩

theorem statsInfo.le_trans {a b c : statsInfo} (h1 : statsInfo.le a b) (h2 : statsInfo.le b c) :
    statsInfo.le a c :=
  ⟨h1.1.trans h2.1, h1.2.1.trans h2.2.1, h1.2.2.1.trans h2.2.2.1, h1.2.2.2.trans h2.2.2.2⟩

/-- The conversion of a non-negative `float64` below 2^63 is not negative. -/
theorem float64ToInt64_nonneg (x : Rat) (h0 : 0 ≤ x) (h1 : x < 9223372036854775808) :
    0 ≤ float64ToInt64 x := by
  have hnum : 0 ≤ x.num := Rat.num_nonneg.mpr h0
  have hden : (0 : Int) < (x.den : Int) := by exact_mod_cast x.den_pos
  have hlt : x.num < 9223372036854775808 * (x.den : Int) := by
    have hx : (x.num : Rat) / (x.den : Rat) < 9223372036854775808 := by
      rw [Rat.num_div_den]
      exact h1
    have hdq : (0 : Rat) < (x.den : Rat) := by exact_mod_cast x.den_pos
    rw [div_lt_iff₀ hdq] at hx
    exact_mod_cast hx
  have ht0 : 0 ≤ Int.tdiv x.num x.den := Int.tdiv_nonneg hnum hden.le
  have ht1 : Int.tdiv x.num x.den ≤ maxInt64 := by
    rw [Int.tdiv_eq_ediv hnum hden.le]
    have : x.num / (x.den : Int) < 9223372036854775808 :=
      Int.ediv_lt_of_lt_mul hden hlt
    unfold maxInt64
    omega
  unfold float64ToInt64
  rw [if_pos ⟨by unfold minInt64; omega, ht1⟩]
  exact ht0

/-- With a positive rate, a non-negative variate and a sample below 2^63 ns
the drawn duration is not negative. -/
theorem drawDuration_nonneg (variate rate : Rat) (hr : 0 < rate) (hv : 0 ≤ variate)
    (hfit : variate / rate * 10000000 < 9223372036854775808) : 0 ≤ drawDuration variate rate := by
  unfold drawDuration
  rw [if_neg (ne_of_gt hr)]
  exact float64ToInt64_nonneg _ (mul_nonneg (div_nonneg hv hr.le) (by norm_num)) hfit

/-- One cycle never lowers a field when the drawn durations are not negative
and no addition overflows. -/
theorem runClientCycle_le (e : Env) (hon : ∀ k, 0 ≤ e.onDraw k) (hoff : ∀ k, 0 ≤ e.offDraw k)
    (fuel : Nat) (w : World) (stats : statsInfo) (hfit : cycleFits e fuel w stats) :
    statsInfo.le stats (runClientCycle e fuel w stats).2.1 := by
  by_cases h : (runClientCycle e fuel w stats).2.2 = Step.next
  · rw [runClientCycle_increments e fuel w stats h]
    obtain ⟨f1, f2, f3, f4⟩ := hfit
    have h1 := hon w.onDraws
    have h2 := hoff w.offDraws
    have h3 := Int.natCast_nonneg (burstRequests e fuel w)
    have h4 := burstTime_nonneg e w (burstRequests e fuel w)
    refine ⟨?_, ?_, ?_, ?_⟩ <;> simp only
    · rw [wrap64_of_inInt64 f1]; omega
    · rw [wrap64_of_inInt64 f2]; omega
    · rw [wrap64_of_inInt64 f3]; omega
    · rw [wrap64_of_inInt64 f4]; omega
  · rw [(runClientCycle_not_next e fuel w stats h).1]
    exact statsInfo.le_refl stats

/-- The whole loop of `runClient` never lowers a field when the drawn
durations are not negative and no addition of the run overflows. -/
theorem runClientLoop_le (e : Env) (hon : ∀ k, 0 ≤ e.onDraw k) (hoff : ∀ k, 0 ≤ e.offDraw k) :
    ∀ (fuel : Nat) (w : World) (stats : statsInfo), runFits e fuel w stats = true →
      statsInfo.le stats (runClientLoop e fuel w stats).2.1 := by
  intro fuel
  induction fuel with
  | zero => intro w stats _; exact statsInfo.le_refl stats
  | succ fuel ih =>
    intro w stats hfit
    rw [runClientLoop]
    rw [runFits] at hfit
    by_cases hdone : ctxDone e w = true
    · simp only [hdone, if_true]
      exact statsInfo.le_refl stats
    · simp only [hdone, Bool.false_eq_true, if_false]
      simp only [Bool.not_eq_true] at hdone
      simp only [hdone, Bool.false_or, Bool.and_eq_true, decide_eq_true_eq] at hfit
      have hc := runClientCycle_le e hon hoff fuel w stats hfit.1
      cases hstep : (runClientCycle e fuel w stats).2.2 with
      | starved => exact hc
      | fail err => exact hc
      | next =>
        simp only
        have hrest := hfit.2
        rw [hstep] at hrest
        exact statsInfo.le_trans hc (ih _ _ hrest)

/-- C8 (amended): under an ON rate > 0 and an OFF rate > 0, with samples that
are not negative and a clock that never goes back, whenever every sample
scaled by 10^7 is below 2^63 (so that its conversion to a duration does not
overflow) every drawn ON and OFF duration is at least 0; then a cycle of
`runClient` none of whose four additions overflows leaves each of OnTime,
OffTime, Requests and ExecutionTime at least as large as before, and so does
a whole run in which no addition overflows. A failed burst, which returns -1
requests, changes nothing in the record. -/
theorem runClient_fields_nondecreasing (cancelAt : Int) (onRate offRate : Rat) (src : Source)
    (fuel : Nat) (w : World) (stats : statsInfo)
    (hon : 0 < onRate) (hoff : 0 < offRate)
    (hvar : ∀ k, 0 ≤ src.onVariate k ∧ 0 ≤ src.offVariate k)
    (hconv : ∀ k, src.onVariate k / onRate * 10000000 < 9223372036854775808 ∧
      src.offVariate k / offRate * 10000000 < 9223372036854775808) :
    (∀ k, 0 ≤ (Env.ofRates cancelAt onRate offRate src).onDraw k ∧
      0 ≤ (Env.ofRates cancelAt onRate offRate src).offDraw k) ∧
    (cycleFits (Env.ofRates cancelAt onRate offRate src) fuel w stats →
      statsInfo.le stats
        (runClientCycle (Env.ofRates cancelAt onRate offRate src) fuel w stats).2.1) ∧
    (runFits (Env.ofRates cancelAt onRate offRate src) fuel w stats = true →
      statsInfo.le stats
        (runClientLoop (Env.ofRates cancelAt onRate offRate src) fuel w stats).2.1) ∧
    (∀ err,
      (runClientCycle (Env.ofRates cancelAt onRate offRate src) fuel w stats).2.2 =
        Step.fail err →
      (runClientCycle (Env.ofRates cancelAt onRate offRate src) fuel w stats).2.1 = stats) := by
  have hdon : ∀ k, 0 ≤ (Env.ofRates cancelAt onRate offRate src).onDraw k := fun k =>
    drawDuration_nonneg _ _ hon (hvar k).1 (hconv k).1
  have hdoff : ∀ k, 0 ≤ (Env.ofRates cancelAt onRate offRate src).offDraw k := fun k =>
    drawDuration_nonneg _ _ hoff (hvar k).2 (hconv k).2
  exact ⟨fun k => ⟨hdon k, hdoff k⟩,
    fun hfit => runClientCycle_le _ hdon hdoff fuel w stats hfit,
    fun hfit => runClientLoop_le _ hdon hdoff fuel w stats hfit,
    fun err h => (runClientCycle_not_next _ fuel w stats (by rw [h]; simp)).1⟩

/-! ## The ON burst and its deadline -/

/-- One turn of the loop of `doRequests` issues a request exactly when the
instant it reads is not after the deadline. -/
theorem doRequestsLoop_issues_iff (e : Env) (deadline : Int) (fuel : Nat) (w : World)
    (requests totalTime : Int) :
    w.gets < (doRequestsLoop e deadline (fuel + 1) w requests totalTime).1.gets ↔
      (timeNow e w).1 ≤ deadline := by
  rw [doRequestsLoop]
  simp only [timeNow_fst, timeNow_snd]
  split
  · rename_i hlt
    simp only [lt_irrefl, false_iff, not_le]
    exact hlt
  · rename_i hge
    have hle : w.now + (e.gap w.reads : Int) ≤ deadline := not_lt.mp hge
    simp only [hle, iff_true]
    split
    · simp
    · have hf := (doRequestsLoop_frame e deadline fuel
        { now := w.now + (e.gap w.reads : Int) + (e.gap (w.reads + 1) : Int)
            + (e.gap (w.reads + 1 + 1) : Int),
          reads := w.reads + 1 + 1 + 1, gets := w.gets + 1, onDraws := w.onDraws,
          offDraws := w.offDraws, slept := w.slept }
        (wrap64 (requests + 1))
        (wrap64 (totalTime + milliseconds
          (timeSub (w.now + (e.gap w.reads : Int) + (e.gap (w.reads + 1) : Int)
            + (e.gap (w.reads + 1 + 1) : Int))
            (w.now + (e.gap w.reads : Int) + (e.gap (w.reads + 1) : Int)))))).1
      simp only at hf
      omega

/-- A burst whose duration is below the time that passes between the reading
of the deadline and the first reading of the loop issues no request. -/
theorem doRequests_no_request (e : Env) (fuel : Nat) (w : World) (d : Int)
    (h : d < (e.gap (w.reads + 1) : Int)) :
    doRequests e (fuel + 1) w d = ((timeNow e (timeNow e w).2).2, some (0, 0, none)) := by
  unfold doRequests
  rw [doRequestsLoop]
  simp only [timeNow_fst, timeNow_snd]
  rw [if_pos (by omega)]

/-- C5 (amended): for every ON duration d <= 0 and every clock that never
goes back, if d < 0 or the clock has advanced between the reading that sets
the deadline and the first reading of the loop, `doRequests` issues no request
and returns (0, 0, nil); the cycle then leaves Requests and ExecutionTime of
the worker's record (a record of 64-bit values) as they were, adds d to OnTime
(a 64-bit addition) and goes on to the OFF phase. More generally a turn of the
loop issues a request exactly when the instant read is not after the deadline
(now <= deadline). -/
theorem doRequests_nonpositive_duration (e : Env) (fuel : Nat) (w : World) (d : Int)
    (stats : statsInfo) (hd : d ≤ 0) (hadv : d < 0 ∨ 0 < e.gap (w.reads + 1)) :
    doRequests e (fuel + 1) w d = ((timeNow e (timeNow e w).2).2, some (0, 0, none)) ∧
    (doRequests e (fuel + 1) w d).1.gets = w.gets ∧
    (e.onDraw w.onDraws = d → statsInfo.isInt64 stats →
      (runClientCycle e (fuel + 1) w stats).2.2 = Step.next ∧
      (runClientCycle e (fuel + 1) w stats).2.1.Requests = stats.Requests ∧
      (runClientCycle e (fuel + 1) w stats).2.1.ExecutionTime = stats.ExecutionTime ∧
      (runClientCycle e (fuel + 1) w stats).2.1.OnTime = wrap64 (stats.OnTime + d) ∧
      (runClientCycle e (fuel + 1) w stats).1.gets = w.gets ∧
      (runClientCycle e (fuel + 1) w stats).1.offDraws = w.offDraws + 1) ∧
    (∀ (deadline : Int) (w1 : World) (requests totalTime : Int),
      w1.gets < (doRequestsLoop e deadline (fuel + 1) w1 requests totalTime).1.gets ↔
        (timeNow e w1).1 ≤ deadline) := by
  have hgap : d < (e.gap (w.reads + 1) : Int) := by
    rcases hadv with h | h
    · have := Int.natCast_nonneg (e.gap (w.reads + 1))
      omega
    · have : (0 : Int) < (e.gap (w.reads + 1) : Int) := by exact_mod_cast h
      omega
  have hres := doRequests_no_request e fuel w d hgap
  refine ⟨hres, ?_, ?_, fun deadline w1 requests totalTime =>
    doRequestsLoop_issues_iff e deadline fuel w1 requests totalTime⟩
  · rw [hres]
    rfl
  · intro hdraw hvalid
    have hres2 := doRequests_no_request e fuel { w with onDraws := w.onDraws + 1 } d hgap
    obtain ⟨_, _, v3, v4⟩ := hvalid
    unfold runClientCycle
    simp only [hdraw, hres2]
    simp [timeNow, timeSleep, wrap64_of_inInt64, v3, v4]

/-! ## Cancellation -/

/-- The loop of `doRequests` never looks at the cancellation instant. -/
theorem doRequestsLoop_cancelAt (e : Env) (c : Int) (deadline : Int) :
    ∀ (fuel : Nat) (w : World) (requests totalTime : Int),
      doRequestsLoop { e with cancelAt := c } deadline fuel w requests totalTime =
        doRequestsLoop e deadline fuel w requests totalTime := by
  intro fuel
  induction fuel with
  | zero => intro w requests totalTime; rfl
  | succ fuel ih =>
    intro w requests totalTime
    rw [doRequestsLoop, doRequestsLoop]
    simp only [timeNow_fst, timeNow_snd]
    by_cases hlt : deadline < w.now + (e.gap w.reads : Int)
    · simp only [if_pos hlt]
    · simp only [if_neg hlt]
      cases hget : e.get w.gets with
      | some err => rfl
      | none => exact ih _ _ _

/-- A cycle of `runClient` never looks at the cancellation instant: the ON
burst and the OFF sleep run the same whenever the signal fires. -/
theorem runClientCycle_cancelAt (e : Env) (c : Int) (fuel : Nat) (w : World)
    (stats : statsInfo) :
    runClientCycle { e with cancelAt := c } fuel w stats = runClientCycle e fuel w stats := by
  unfold runClientCycle doRequests
  simp only [timeNow_fst, timeNow_snd, doRequestsLoop_cancelAt]

/-- The OFF phase of a cycle that reaches its end: one OFF duration is drawn
and slept in full. -/
theorem runClientCycle_off_phase (e : Env) (fuel : Nat) (w : World) (stats : statsInfo)
    (h : (runClientCycle e fuel w stats).2.2 = Step.next) :
    (runClientCycle e fuel w stats).1.offDraws = w.offDraws + 1 ∧
    (runClientCycle e fuel w stats).2.1.OffTime =
      wrap64 (stats.OffTime + e.offDraw w.offDraws) ∧
    (runClientCycle e fuel w stats).1.slept = w.slept + max (e.offDraw w.offDraws) 0 ∧
    (runClientCycle e fuel w stats).1.now =
      (burstEnd e fuel w).now + max (e.offDraw w.offDraws) 0 := by
  obtain ⟨r, t, _, hw, hstats⟩ := runClientCycle_next e fuel w stats h
  obtain ⟨_, _, _, hoffd, hsl⟩ := burst_frame e fuel w
  rw [hw, hstats, hoffd]
  simp [timeSleep, hoffd, hsl]

/-- A poll of a cancelled context makes `runClient` return nil at once. -/
theorem runClientLoop_done (e : Env) (fuel : Nat) (w : World) (stats : statsInfo)
    (h : e.cancelAt ≤ w.now) :
    runClientLoop e (fuel + 1) w stats = (w, stats, Outcome.returned none) := by
  rw [runClientLoop]
  simp [ctxDone, h]

/-- C6 (amended): `runClient` polls the cancellation signal only at the top
of a cycle. When the signal fires during the ON burst of a cycle and no
request of the burst fails, the worker still enters the OFF phase: one OFF
duration is drawn, added to OffTime (a 64-bit addition) and slept in full;
the worker returns (DONE) at the next poll, with the record it had after that
OFF phase. -/
theorem runClientCycle_off_after_cancel (e : Env) (fuel fuel' : Nat) (w : World)
    (stats : statsInfo)
    (hpoll : w.now < e.cancelAt)
    (hfire : e.cancelAt ≤ (burstEnd e fuel w).now)
    (hnext : (runClientCycle e fuel w stats).2.2 = Step.next) :
    ctxDone e w = false ∧
    (runClientCycle e fuel w stats).1.offDraws = w.offDraws + 1 ∧
    (runClientCycle e fuel w stats).2.1.OffTime =
      wrap64 (stats.OffTime + e.offDraw w.offDraws) ∧
    (runClientCycle e fuel w stats).1.slept = w.slept + max (e.offDraw w.offDraws) 0 ∧
    runClientLoop e (fuel' + 1) (runClientCycle e fuel w stats).1
        (runClientCycle e fuel w stats).2.1 =
      ((runClientCycle e fuel w stats).1, (runClientCycle e fuel w stats).2.1,
        Outcome.returned none) := by
  obtain ⟨h1, h2, h3, h4⟩ := runClientCycle_off_phase e fuel w stats hnext
  refine ⟨by simp [ctxDone, hpoll], h1, h2, h3, runClientLoop_done e fuel' _ _ ?_⟩
  rw [h4]
  have := le_max_right (e.offDraw w.offDraws) 0
  omega

/-- C7 (amended): the idle wait of the OFF phase is `time.Sleep(d)`, which
the cancellation signal does not interrupt. When the signal fires after the
OFF phase has begun and before d has elapsed, the wait still runs for the full
d and ends after the cancellation instant; the worker returns (DONE) only at
the poll that follows the wait. -/
theorem runClientCycle_sleep_runs_full (e : Env) (fuel fuel' : Nat) (w : World)
    (stats : statsInfo)
    (hnext : (runClientCycle e fuel w stats).2.2 = Step.next)
    (hbefore : (burstEnd e fuel w).now < e.cancelAt)
    (hduring : e.cancelAt < (burstEnd e fuel w).now + e.offDraw w.offDraws) :
    (runClientCycle e fuel w stats).1.now = (burstEnd e fuel w).now + e.offDraw w.offDraws ∧
    (runClientCycle e fuel w stats).1.slept = w.slept + e.offDraw w.offDraws ∧
    e.cancelAt < (runClientCycle e fuel w stats).1.now ∧
    runClientLoop e (fuel' + 1) (runClientCycle e fuel w stats).1
        (runClientCycle e fuel w stats).2.1 =
      ((runClientCycle e fuel w stats).1, (runClientCycle e fuel w stats).2.1,
        Outcome.returned none) := by
  obtain ⟨_, _, h3, h4⟩ := runClientCycle_off_phase e fuel w stats hnext
  have hpos : max (e.offDraw w.offDraws) 0 = e.offDraw w.offDraws := max_eq_left (by omega)
  rw [hpos] at h3 h4
  refine ⟨h4, h3, by omega, runClientLoop_done e fuel' _ _ (by omega)⟩

/-! ## A failing request -/

/-- A burst that starts before the failing request (the one of index `n`)
either stops before that request without error, or issues it and returns
`(-1, 0, err)`. -/
theorem doRequestsLoop_until_failure (e : Env) (n : Nat) (err : TransportError)
    (hok : ∀ k, k < n → e.get k = none) (hfail : e.get n = some err) (deadline : Int) :
    ∀ (fuel : Nat) (w : World) (requests totalTime : Int), w.gets ≤ n →
      ((doRequestsLoop e deadline fuel w requests totalTime).1.gets ≤ n ∧
        ∀ r t x, (doRequestsLoop e deadline fuel w requests totalTime).2 = some (r, t, x) →
          x = none) ∨
      ((doRequestsLoop e deadline fuel w requests totalTime).1.gets = n + 1 ∧
        (doRequestsLoop e deadline fuel w requests totalTime).2 = some (-1, 0, some err)) := by
  intro fuel
  induction fuel with
  | zero =>
    intro w requests totalTime hw
    left
    simp [doRequestsLoop, hw]
  | succ fuel ih =>
    intro w requests totalTime hw
    rw [doRequestsLoop]
    simp only [timeNow_fst, timeNow_snd]
    by_cases hlt : deadline < w.now + (e.gap w.reads : Int)
    · left
      simp only [if_pos hlt]
      refine ⟨hw, ?_⟩
      intro r t x hx
      simp only [Option.some.injEq, Prod.mk.injEq] at hx
      exact hx.2.2.symm
    · simp only [if_neg hlt]
      cases hget : e.get w.gets with
      | some err' =>
        right
        have hn : w.gets = n := by
          rcases Nat.lt_or_ge w.gets n with hlt' | hge
          · rw [hok _ hlt'] at hget
            cases hget
          · omega
        rw [hn, hfail] at hget
        cases hget
        simp [hn]
      | none =>
        have hne : w.gets ≠ n := by
          intro hn
          rw [hn, hfail] at hget
          cases hget
        exact ih _ _ _ (by simp only; omega)

/-- A cycle that starts before the failing request, with a record that counts
the requests issued so far. -/
theorem runClientCycle_until_failure (e : Env) (n : Nat) (err : TransportError)
    (hok : ∀ k, k < n → e.get k = none) (hfail : e.get n = some err)
    (fuel : Nat) (w : World) (stats : statsInfo) (hw : w.gets ≤ n)
    (hs : stats.Requests = wrap64 (w.gets : Int)) :
    ((runClientCycle e fuel w stats).1.gets ≤ n ∧
      (∀ x, (runClientCycle e fuel w stats).2.2 ≠ Step.fail x) ∧
      ((runClientCycle e fuel w stats).2.2 = Step.next →
        (runClientCycle e fuel w stats).2.1.Requests =
          wrap64 ((runClientCycle e fuel w stats).1.gets : Int))) ∨
    ((runClientCycle e fuel w stats).2.2 = Step.fail err ∧
      (runClientCycle e fuel w stats).1.gets = n + 1 ∧
      (runClientCycle e fuel w stats).1 = burstEnd e fuel w ∧
      burstResult e fuel w = some (-1, 0, some err) ∧
      (runClientCycle e fuel w stats).2.1 = stats) := by
  have hloop := doRequestsLoop_until_failure e n err hok hfail
    ((timeNow e { w with onDraws := w.onDraws + 1 }).1 + e.onDraw w.onDraws) fuel
    (timeNow e { w with onDraws := w.onDraws + 1 }).2 0 0 (by simpa [timeNow_snd] using hw)
  have hend : burstEnd e fuel w = (doRequestsLoop e
      ((timeNow e { w with onDraws := w.onDraws + 1 }).1 + e.onDraw w.onDraws) fuel
      (timeNow e { w with onDraws := w.onDraws + 1 }).2 0 0).1 := rfl
  have hresd : burstResult e fuel w = (doRequestsLoop e
      ((timeNow e { w with onDraws := w.onDraws + 1 }).1 + e.onDraw w.onDraws) fuel
      (timeNow e { w with onDraws := w.onDraws + 1 }).2 0 0).2 := rfl
  rw [← hend, ← hresd] at hloop
  by_cases hnext : (runClientCycle e fuel w stats).2.2 = Step.next
  · left
    have hgets := runClientCycle_gets e fuel w stats hnext
    have hinc := runClientCycle_increments e fuel w stats hnext
    obtain ⟨r, t, hres, _, _⟩ := runClientCycle_next e fuel w stats hnext
    have hbe : (burstEnd e fuel w).gets = w.gets + burstRequests e fuel w := by
      have := (burst_frame e fuel w).1
      unfold burstRequests
      omega
    rcases hloop with ⟨hle, _⟩ | ⟨_, hbad⟩
    · refine ⟨by omega, ?_, ?_⟩
      · intro x hx
        rw [hnext] at hx
        cases hx
      · intro _
        rw [hinc, hgets]
        simp only
        rw [hs, wrap64_add_left]
        push_cast
        rfl
    · rw [hres] at hbad
      simp at hbad
  · obtain ⟨hst, hwd⟩ := runClientCycle_not_next e fuel w stats hnext
    rcases hloop with ⟨hle, hnone⟩ | ⟨hg, hbad⟩
    · left
      refine ⟨by rw [hwd]; exact hle, ?_, fun h => absurd h hnext⟩
      intro x hx
      unfold runClientCycle at hx
      simp only at hx
      split at hx
      · simp at hx
      · rename_i a b err' heq
        have := hnone a b (some err') heq
        cases this
      · simp at hx
    · right
      refine ⟨?_, by rw [hwd]; exact hg, hwd, hbad, hst⟩
      unfold burstResult at hbad
      unfold runClientCycle
      simp only [hbad]

/-- The loop of `runClient`, started before the failing request with a record
that counts the requests issued so far: either it has not reached the failing
request and has not returned an error, or it has returned the error of that
request, with the record it had when the failing burst began. -/
theorem runClientLoop_until_failure (e : Env) (n : Nat) (err : TransportError)
    (hok : ∀ k, k < n → e.get k = none) (hfail : e.get n = some err) :
    ∀ (fuel : Nat) (w : World) (stats : statsInfo), w.gets ≤ n →
      stats.Requests = wrap64 (w.gets : Int) →
      ((runClientLoop e fuel w stats).1.gets ≤ n ∧
        ∀ x, (runClientLoop e fuel w stats).2.2 = Outcome.returned x → x = none) ∨
      ((runClientLoop e fuel w stats).2.2 = Outcome.returned (some err) ∧
        (runClientLoop e fuel w stats).1.gets = n + 1 ∧
        (lastCycle e fuel w stats).2.1.gets ≤ n ∧
        (runClientLoop e fuel w stats).1 =
          burstEnd e (lastCycle e fuel w stats).1 (lastCycle e fuel w stats).2.1 ∧
        burstResult e (lastCycle e fuel w stats).1 (lastCycle e fuel w stats).2.1 =
          some (-1, 0, some err) ∧
        (runClientLoop e fuel w stats).2.1 = (lastCycle e fuel w stats).2.2 ∧
        (lastCycle e fuel w stats).2.2.Requests =
          wrap64 ((lastCycle e fuel w stats).2.1.gets : Int)) := by
  intro fuel
  induction fuel with
  | zero =>
    intro w stats hw _
    left
    simp [runClientLoop, hw]
  | succ fuel ih =>
    intro w stats hw hs
    rw [runClientLoop, lastCycle]
    by_cases hdone : ctxDone e w = true
    · left
      simp only [hdone, if_true]
      refine ⟨hw, ?_⟩
      intro x hx
      cases hx
      rfl
    · simp only [hdone]
      rcases runClientCycle_until_failure e n err hok hfail fuel w stats hw hs with
        ⟨hle, hnf, hreq⟩ | ⟨hf, hg, hwd, hres, hst⟩
      · cases hstep : (runClientCycle e fuel w stats).2.2 with
        | starved =>
          left
          simp only [Bool.false_eq_true, if_false]
          refine ⟨hle, ?_⟩
          intro x hx
          cases hx
        | fail x => exact absurd hstep (hnf x)
        | next =>
          simp only [Bool.false_eq_true, if_false]
          exact ih _ _ hle (hreq hstep)
      · right
        simp only [hf, Bool.false_eq_true, if_false]
        exact ⟨trivial, hg, hw, hwd, hres, hst, hs⟩

/-- C2 (amended): if the first n requests of a worker succeed and its
(n+1)-th request is issued and fails with a transport error, then `runClient`
returns that error, having issued n+1 requests, and its record is the record
it had at the top of the cycle whose burst failed: Requests is the number of
requests issued before the failing burst began, which is n minus the number of
requests that succeeded inside the failing burst. These are dropped, so
Requests == n only when the failing request is the first of its burst. -/
theorem runClient_returns_request_error (e : Env) (n : Nat) (err : TransportError)
    (fuel : Nat) (t0 : Int)
    (hok : ∀ k, k < n → e.get k = none) (hfail : e.get n = some err)
    (hn : (n : Int) ≤ maxInt64)
    (hissued : n < (runClient e fuel t0 statsInfo.zero).1.gets) :
    (runClient e fuel t0 statsInfo.zero).2.2 = Outcome.returned (some err) ∧
    (runClient e fuel t0 statsInfo.zero).1.gets = n + 1 ∧
    (runClient e fuel t0 statsInfo.zero).2.1 =
      (lastCycle e fuel (World.start t0) statsInfo.zero).2.2 ∧
    (runClient e fuel t0 statsInfo.zero).2.1.Requests =
      ((lastCycle e fuel (World.start t0) statsInfo.zero).2.1.gets : Int) ∧
    (lastCycle e fuel (World.start t0) statsInfo.zero).2.1.gets ≤ n ∧
    (runClient e fuel t0 statsInfo.zero).1 =
      burstEnd e (lastCycle e fuel (World.start t0) statsInfo.zero).1
        (lastCycle e fuel (World.start t0) statsInfo.zero).2.1 ∧
    burstResult e (lastCycle e fuel (World.start t0) statsInfo.zero).1
        (lastCycle e fuel (World.start t0) statsInfo.zero).2.1 = some (-1, 0, some err) ∧
    ((runClient e fuel t0 statsInfo.zero).2.1.Requests = (n : Int) ↔
      (burstEnd e (lastCycle e fuel (World.start t0) statsInfo.zero).1
        (lastCycle e fuel (World.start t0) statsInfo.zero).2.1).gets =
        (lastCycle e fuel (World.start t0) statsInfo.zero).2.1.gets + 1) := by
  unfold runClient at hissued ⊢
  rcases runClientLoop_until_failure e n err hok hfail fuel (World.start t0) statsInfo.zero
      (Nat.zero_le n) wrap64_zero.symm with
    ⟨hle, _⟩ | ⟨hret, hg, hwk, hend, hres, hrec, hreq⟩
  · omega
  · have hfits : inInt64 ((lastCycle e fuel (World.start t0) statsInfo.zero).2.1.gets : Int) := by
      have h0 := Int.natCast_nonneg (lastCycle e fuel (World.start t0) statsInfo.zero).2.1.gets
      have h1 : ((lastCycle e fuel (World.start t0) statsInfo.zero).2.1.gets : Int) ≤ n := by
        exact_mod_cast hwk
      unfold inInt64 minInt64
      unfold maxInt64 at hn ⊢
      omega
    have hreq2 : (runClientLoop e fuel (World.start t0) statsInfo.zero).2.1.Requests =
        ((lastCycle e fuel (World.start t0) statsInfo.zero).2.1.gets : Int) := by
      rw [hrec, hreq, wrap64_of_inInt64 hfits]
    refine ⟨hret, hg, hrec, hreq2, hwk, hend, hres, ?_⟩
    rw [hreq2, ← hend, hg]
    constructor
    · intro h
      have : (lastCycle e fuel (World.start t0) statsInfo.zero).2.1.gets = n := by
        exact_mod_cast h
      omega
    · intro h
      have : (lastCycle e fuel (World.start t0) statsInfo.zero).2.1.gets = n := by omega
      exact_mod_cast this

/-! ## Termination -/

/-- When the clock advances at every reading, a burst returns as soon as the
fuel exceeds the time left to its deadline. -/
theorem doRequestsLoop_returns (e : Env) (hgap : ∀ k, 0 < e.gap k) (deadline : Int) :
    ∀ (fuel : Nat) (w : World) (requests totalTime : Int), 0 < fuel →
      deadline - w.now < (fuel : Int) →
      (doRequestsLoop e deadline fuel w requests totalTime).2 ≠ none := by
  intro fuel
  induction fuel with
  | zero => intro w requests totalTime h; omega
  | succ fuel ih =>
    intro w requests totalTime _ hlt
    rw [doRequestsLoop]
    simp only [timeNow_fst, timeNow_snd]
    by_cases hd : deadline < w.now + (e.gap w.reads : Int)
    · simp [if_pos hd]
    · simp only [if_neg hd]
      cases hget : e.get w.gets with
      | some err => simp
      | none =>
        have h0 : (0 : Int) < (e.gap w.reads : Int) := by exact_mod_cast hgap w.reads
        have h1 := Int.natCast_nonneg (e.gap (w.reads + 1))
        have h2 := Int.natCast_nonneg (e.gap (w.reads + 1 + 1))
        refine ih _ _ _ (by omega) ?_
        simp only
        push_cast at hlt
        omega

/-- When the clock advances at every reading, a cycle with more fuel than its
ON duration does not run out of fuel. -/
theorem runClientCycle_not_starved (e : Env) (hgap : ∀ k, 0 < e.gap k) (fuel : Nat)
    (w : World) (stats : statsInfo) (hpos : 0 < fuel) (hfuel : e.onDraw w.onDraws < (fuel : Int)) :
    (runClientCycle e fuel w stats).2.2 ≠ Step.starved := by
  have hret := doRequestsLoop_returns e hgap
    ((timeNow e { w with onDraws := w.onDraws + 1 }).1 + e.onDraw w.onDraws) fuel
    (timeNow e { w with onDraws := w.onDraws + 1 }).2 0 0 hpos
    (by simp only [timeNow_fst, timeNow_snd]; omega)
  unfold runClientCycle doRequests
  simp only
  split
  · rename_i heq
    exact absurd heq hret
  · simp
  · simp

/-- Every worker returns: when the clock advances at every reading and the ON
durations are bounded by `bound`, `runClient` returns once the fuel exceeds
the bound plus the time left before cancellation. -/
theorem runClientLoop_returns (e : Env) (hgap : ∀ k, 0 < e.gap k) (bound : Nat)
    (hon : ∀ k, e.onDraw k < (bound : Int)) :
    ∀ (fuel : Nat) (w : World) (stats : statsInfo), bound < fuel →
      (bound : Int) + (e.cancelAt - w.now) < (fuel : Int) →
      (runClientLoop e fuel w stats).2.2 ≠ Outcome.running := by
  intro fuel
  induction fuel with
  | zero => intro w stats h; omega
  | succ fuel ih =>
    intro w stats _ hlt
    rw [runClientLoop]
    by_cases hdone : ctxDone e w = true
    · simp [hdone]
    · simp only [hdone, Bool.false_eq_true, if_false]
      have hnot : w.now < e.cancelAt := by
        simpa [ctxDone] using hdone
      have hb : bound < fuel := by
        push_cast at hlt
        omega
      have hdraw := hon w.onDraws
      have hns := runClientCycle_not_starved e hgap fuel w stats (by omega) (by omega)
      cases hstep : (runClientCycle e fuel w stats).2.2 with
      | starved => exact absurd hstep hns
      | fail err => simp
      | next =>
        simp only
        refine ih _ _ hb ?_
        obtain ⟨_, _, _, hnow⟩ := runClientCycle_off_phase e fuel w stats hstep
        obtain ⟨_, hb2, _⟩ := burst_frame e fuel w
        have h0 : (0 : Int) < (e.gap w.reads : Int) := by exact_mod_cast hgap w.reads
        have hm := le_max_right (e.offDraw w.offDraws) 0
        push_cast at hlt
        omega

/-! ## The end of `main` -/

theorem groupWait_eq_none (errs : List (Option TransportError)) :
    groupWait errs = none ↔ ∀ x ∈ errs, x = none := by
  unfold groupWait
  induction errs with
  | nil => simp
  | cons a rest ih =>
    cases a with
    | none => simp [List.findSome?, ih]
    | some err => simp [List.findSome?]

theorem groupWait_mem (errs : List (Option TransportError)) (err : TransportError)
    (h : groupWait errs = some err) : some err ∈ errs := by
  unfold groupWait at h
  induction errs with
  | nil => simp at h
  | cons a rest ih =>
    cases a with
    | none =>
      simp only [List.findSome?, id] at h
      exact List.mem_cons_of_mem _ (ih h)
    | some err' =>
      simp only [List.findSome?, id, Option.some.injEq] at h
      subst h
      exact List.mem_cons_self _ _

/-- When `g.Wait()` returns nil, `main` computes the total and prints the
summary. -/
theorem mainAfterWait_nil (stats : List statsInfo) (errs : List (Option TransportError))
    (elapsed : Int) (h : groupWait errs = none) :
    mainAfterWait stats errs elapsed =
      MainOutcome.summary (mainTotal stats)
        (mainReport (mainTotal stats) stats.length elapsed) := by
  unfold mainAfterWait
  rw [h]

/-- The error of a worker that has returned. -/
theorem Outcome.error_eq_some (o : Outcome) (err : TransportError)
    (h : o.error = some err) : o = Outcome.returned (some err) := by
  cases o with
  | running => simp [Outcome.error] at h
  | returned x =>
    simp only [Outcome.error] at h
    rw [h]

/-- The end of `main` when the start did not panic and every worker has
returned. -/
theorem clientMain_spawned (maxLen : Nat) (cfg : Config) (srcs : Nat → Source)
    (order : List Nat) (fuel : Nat) (t0 elapsed : Int) (n : Nat)
    (hspawn : mainSpawn maxLen cfg.threads cfg.onRate cfg.offRate = Startup.spawned n)
    (hdone : ∀ i, i < n → (workerRun cfg srcs fuel t0 i).2.2 ≠ Outcome.running) :
    clientMain maxLen cfg srcs order fuel t0 elapsed =
      mainAfterWait (workerRecords cfg srcs fuel t0 n)
        (order.map (fun i => (workerRun cfg srcs fuel t0 i).2.2.error)) elapsed := by
  unfold clientMain
  rw [hspawn]
  have hall : (List.range n).all
      (fun i => decide ((workerRun cfg srcs fuel t0 i).2.2 ≠ Outcome.running)) = true := by
    rw [List.all_eq_true]
    intro i hi
    exact decide_eq_true (hdone i (List.mem_range.mp hi))
  simp only [hall, if_true]

/-- C9 (amended): for every run whose start does not panic, once every worker
has returned `main` ends in exactly one of two ways. If no worker returned an
error it computes the total, each field the 64-bit sum of that field over the
records of the workers, and prints the summary made of that total: latency
ExecutionTime / Requests, the request count, rate Requests / elapsed time, ON
and OFF averages over the number of threads. If at least one worker returned
an error it prints one of the returned errors and exits with status 1, and
neither total nor summary is computed. -/
theorem clientMain_two_outcomes (maxLen : Nat) (cfg : Config) (srcs : Nat → Source)
    (order : List Nat) (fuel : Nat) (t0 elapsed : Int) (n : Nat)
    (hspawn : mainSpawn maxLen cfg.threads cfg.onRate cfg.offRate = Startup.spawned n)
    (hdone : ∀ i, i < n → (workerRun cfg srcs fuel t0 i).2.2 ≠ Outcome.running)
    (horder : order.Perm (List.range n)) :
    ((∀ i, i < n → (workerRun cfg srcs fuel t0 i).2.2 = Outcome.returned none) →
      ∃ total : statsInfo,
        clientMain maxLen cfg srcs order fuel t0 elapsed =
          MainOutcome.summary total
            { latency := { num := total.ExecutionTime, den := total.Requests },
              requests := total.Requests,
              rate := { num := total.Requests, den := elapsed },
              onAverage := { num := total.OnTime, den := (n : Int) },
              offAverage := { num := total.OffTime, den := (n : Int) } } ∧
        total.OnTime = wrap64
          ((List.range n).map (fun i => (workerRun cfg srcs fuel t0 i).2.1.OnTime)).sum ∧
        total.OffTime = wrap64
          ((List.range n).map (fun i => (workerRun cfg srcs fuel t0 i).2.1.OffTime)).sum ∧
        total.Requests = wrap64
          ((List.range n).map (fun i => (workerRun cfg srcs fuel t0 i).2.1.Requests)).sum ∧
        total.ExecutionTime = wrap64
          ((List.range n).map
            (fun i => (workerRun cfg srcs fuel t0 i).2.1.ExecutionTime)).sum) ∧
    ((∃ i, i < n ∧ (workerRun cfg srcs fuel t0 i).2.2 ≠ Outcome.returned none) →
      ∃ i err, i < n ∧ (workerRun cfg srcs fuel t0 i).2.2 = Outcome.returned (some err) ∧
        clientMain maxLen cfg srcs order fuel t0 elapsed = MainOutcome.exit1 err) := by
  rw [clientMain_spawned maxLen cfg srcs order fuel t0 elapsed n hspawn hdone]
  constructor
  · intro hall
    have herrs : ∀ x ∈ order.map (fun i => (workerRun cfg srcs fuel t0 i).2.2.error),
        x = none := by
      intro x hx
      obtain ⟨i, hi, rfl⟩ := List.mem_map.mp hx
      have hlt : i < n := List.mem_range.mp ((horder.mem_iff).mp hi)
      rw [hall i hlt]
      rfl
    refine ⟨mainTotal (workerRecords cfg srcs fuel t0 n), ?_, ?_, ?_, ?_, ?_⟩
    · rw [mainAfterWait_nil _ _ _ ((groupWait_eq_none _).mpr herrs)]
      simp [mainReport, workerRecords]
    · rw [mainTotal_fields]
      simp [workerRecords, List.map_map, Function.comp_def]
    · rw [mainTotal_fields]
      simp [workerRecords, List.map_map, Function.comp_def]
    · rw [mainTotal_fields]
      simp [workerRecords, List.map_map, Function.comp_def]
    · rw [mainTotal_fields]
      simp [workerRecords, List.map_map, Function.comp_def]
  · rintro ⟨i, hi, hne⟩
    have hmem : (workerRun cfg srcs fuel t0 i).2.2.error ∈
        order.map (fun i => (workerRun cfg srcs fuel t0 i).2.2.error) :=
      List.mem_map.mpr ⟨i, (horder.mem_iff).mpr (List.mem_range.mpr hi), rfl⟩
    have hsome : (workerRun cfg srcs fuel t0 i).2.2.error ≠ none := by
      intro hnone
      cases ho : (workerRun cfg srcs fuel t0 i).2.2 with
      | running => exact hdone i hi ho
      | returned x =>
        rw [ho] at hnone hne
        simp only [Outcome.error] at hnone
        rw [hnone] at hne
        exact hne rfl
    cases hw : groupWait (order.map (fun i => (workerRun cfg srcs fuel t0 i).2.2.error)) with
    | none => exact absurd ((groupWait_eq_none _).mp hw _ hmem) hsome
    | some err =>
      obtain ⟨j, hj, hje⟩ := List.mem_map.mp (groupWait_mem _ err hw)
      refine ⟨j, err, List.mem_range.mp ((horder.mem_iff).mp hj),
        Outcome.error_eq_some _ err hje, ?_⟩
      unfold mainAfterWait
      rw [hw]

/-- C3 (amended): when no worker returned an error, `main` prints the summary
whatever the records are, and computes each quotient without a guard: the
average latency is ExecutionTime / Requests of the total, the throughput is
Requests / elapsed time, the ON and OFF averages are divided by the number of
threads. With a total request count of zero, or with zero workers, the
denominator of the average latency is zero (and with zero workers so are the
two denominators of the averages); no "no data" condition is reported. In the
run with duration 0 every worker returns at once with its record untouched. -/
theorem mainAfterWait_unguarded_divisions (stats : List statsInfo)
    (errs : List (Option TransportError)) (elapsed : Int)
    (hok : ∀ x ∈ errs, x = none)
    (hzero : (mainTotal stats).Requests = 0 ∨ stats = []) :
    mainAfterWait stats errs elapsed =
      MainOutcome.summary (mainTotal stats)
        (mainReport (mainTotal stats) stats.length elapsed) ∧
    (mainReport (mainTotal stats) stats.length elapsed).latency =
      { num := (mainTotal stats).ExecutionTime, den := 0 } ∧
    (mainReport (mainTotal stats) stats.length elapsed).rate = { num := 0, den := elapsed } ∧
    (mainReport (mainTotal stats) stats.length elapsed).onAverage.den = stats.length ∧
    (mainReport (mainTotal stats) stats.length elapsed).offAverage.den = stats.length ∧
    (stats = [] →
      (mainReport (mainTotal stats) stats.length elapsed).denominators = [0, elapsed, 0, 0]) ∧
    (∀ (e : Env) (fuel : Nat) (t0 : Int) (s : statsInfo), e.cancelAt ≤ t0 →
      runClient e (fuel + 1) t0 s = (World.start t0, s, Outcome.returned none)) := by
  have hreq : (mainTotal stats).Requests = 0 := by
    rcases hzero with h | h
    · exact h
    · subst h
      rfl
  refine ⟨mainAfterWait_nil stats errs elapsed ((groupWait_eq_none errs).mpr hok),
    ?_, ?_, rfl, rfl, ?_, ?_⟩
  · simp [mainReport, hreq]
  · simp [mainReport, hreq]
  · intro h
    subst h
    rfl
  · intro e fuel t0 s h
    exact runClientLoop_done e fuel (World.start t0) s h

/-- C4 (amended): the start of `main` validates neither the rates nor the
number of threads. With a worker count below 1 no worker is started: a count
of 0 starts none and the run goes on, a negative count makes the allocation of
the slice panic before any worker is started. With a worker count of at least
1 that the allocation of the slice accepts, that many workers are started
whatever the ON and OFF rates are, also when they are zero or negative; a
larger count makes the allocation panic before any worker is started. -/
theorem mainSpawn_no_validation (maxLen : Nat) (threads : Int) (onRate offRate : Rat) :
    (threads < 1 → (mainSpawn maxLen threads onRate offRate).workers = 0) ∧
    (threads < 0 ∨ (maxLen : Int) < threads →
      mainSpawn maxLen threads onRate offRate = Startup.panicked) ∧
    (threads = 0 → mainSpawn maxLen threads onRate offRate = Startup.spawned 0) ∧
    (1 ≤ threads → threads ≤ (maxLen : Int) →
      mainSpawn maxLen threads onRate offRate = Startup.spawned threads.toNat ∧
      (mainSpawn maxLen threads onRate offRate).failed = false ∧
      ((mainSpawn maxLen threads onRate offRate).workers : Int) = threads) ∧
    (∀ onRate2 offRate2 : Rat,
      mainSpawn maxLen threads onRate2 offRate2 = mainSpawn maxLen threads onRate offRate) := by
  unfold mainSpawn
  refine ⟨?_, ?_, ?_, ?_, fun _ _ => rfl⟩
  · intro h
    by_cases hp : threads < 0 ∨ (maxLen : Int) < threads
    · simp [hp, Startup.workers]
    · have : threads = 0 := by omega
      subst this
      rw [if_neg hp]
      rfl
  · intro h
    simp [h]
  · intro h
    subst h
    have hp : ¬ ((0 : Int) < 0 ∨ (maxLen : Int) < 0) := by omega
    rw [if_neg hp]
    rfl
  · intro h1 h2
    have hp : ¬ (threads < 0 ∨ (maxLen : Int) < threads) := by omega
    have h0 : 0 ≤ threads := by omega
    simp [hp, Startup.failed, Startup.workers, h0]

/-! ## Concrete runs -/

/-- C1 as stated fails: with the flags of `tinyRateConfig` (ON rate 2^-50 > 0)
each of the two workers ends its single cycle with OnTime equal to the
smallest `int64`; the total computed by `main` has OnTime 0, and the sum of
the two fields is -2^64. -/
theorem mainTotal_overflow_not_exact :
    workerRecords tinyRateConfig (fun _ => unitSource) 5 0 2 =
      [{ OnTime := -9223372036854775808, OffTime := 20000000, Requests := 0,
         ExecutionTime := 0 },
       { OnTime := -9223372036854775808, OffTime := 20000000, Requests := 0,
         ExecutionTime := 0 }] ∧
    (mainTotal (workerRecords tinyRateConfig (fun _ => unitSource) 5 0 2)).OnTime = 0 ∧
    ((workerRecords tinyRateConfig (fun _ => unitSource) 5 0 2).map statsInfo.OnTime).sum =
      -18446744073709551616 ∧
    (mainTotal (workerRecords tinyRateConfig (fun _ => unitSource) 5 0 2)).OnTime ≠
      ((workerRecords tinyRateConfig (fun _ => unitSource) 5 0 2).map statsInfo.OnTime).sum ∧
    clientMain 1000 tinyRateConfig (fun _ => unitSource) [0, 1] 5 0 20000010 =
      MainOutcome.summary
        { OnTime := 0, OffTime := 40000000, Requests := 0, ExecutionTime := 0 }
        { latency := { num := 0, den := 0 }, requests := 0,
          rate := { num := 0, den := 20000010 },
          onAverage := { num := 0, den := 2 },
          offAverage := { num := 40000000, den := 2 } } := by
  decide!

/-- C1 (amended) on two records whose sums fit. -/
theorem mainTotal_wrapped_sums_witness :
    inInt64 (([{ OnTime := 7, OffTime := 3, Requests := 2, ExecutionTime := 40 },
        { OnTime := 5, OffTime := 9, Requests := 4, ExecutionTime := 2 }] :
        List statsInfo).map statsInfo.OnTime).sum ∧
    (mainTotal [{ OnTime := 7, OffTime := 3, Requests := 2, ExecutionTime := 40 },
        { OnTime := 5, OffTime := 9, Requests := 4, ExecutionTime := 2 }]).OnTime =
      (([{ OnTime := 7, OffTime := 3, Requests := 2, ExecutionTime := 40 },
        { OnTime := 5, OffTime := 9, Requests := 4, ExecutionTime := 2 }] :
        List statsInfo).map statsInfo.OnTime).sum ∧
    mainTotal [{ OnTime := 7, OffTime := 3, Requests := 2, ExecutionTime := 40 },
        { OnTime := 5, OffTime := 9, Requests := 4, ExecutionTime := 2 }] =
      { OnTime := 12, OffTime := 12, Requests := 6, ExecutionTime := 42 } :=
  ⟨by decide,
    (mainTotal_wrapped_sums
      [{ OnTime := 7, OffTime := 3, Requests := 2, ExecutionTime := 40 },
        { OnTime := 5, OffTime := 9, Requests := 4, ExecutionTime := 2 }]).2.2.2.2.1
      (by decide),
    by decide⟩

/-- C2 as stated fails: in `thirdCallFails` the first two requests succeed
and the third fails, all three in the first burst; `runClient` returns the
error and Requests is 0, not 2. -/
theorem runClient_failure_requests_not_n :
    thirdCallFails.get 0 = none ∧ thirdCallFails.get 1 = none ∧
    thirdCallFails.get 2 = some { code := 7 } ∧
    (runClient thirdCallFails 10 0 statsInfo.zero).2.2 =
      Outcome.returned (some { code := 7 }) ∧
    (runClient thirdCallFails 10 0 statsInfo.zero).1.gets = 3 ∧
    (runClient thirdCallFails 10 0 statsInfo.zero).2.1.Requests = 0 ∧
    (runClient thirdCallFails 10 0 statsInfo.zero).2.1.Requests ≠ 2 := by
  decide

/-- C2 (amended) on `thirdCallFails`: the failing burst began before any
request, so Requests is 0; and on `thirdBurstFails`, where the failing request
opens its burst, so Requests is 2. -/
theorem runClient_returns_request_error_witness :
    (∀ k, k < 2 → thirdCallFails.get k = none) ∧
    thirdCallFails.get 2 = some { code := 7 } ∧
    ((2 : Nat) : Int) ≤ maxInt64 ∧
    2 < (runClient thirdCallFails 10 0 statsInfo.zero).1.gets ∧
    (runClient thirdCallFails 10 0 statsInfo.zero).2.2 =
      Outcome.returned (some { code := 7 }) ∧
    (runClient thirdCallFails 10 0 statsInfo.zero).2.1.Requests =
      ((lastCycle thirdCallFails 10 (World.start 0) statsInfo.zero).2.1.gets : Int) ∧
    (lastCycle thirdCallFails 10 (World.start 0) statsInfo.zero).2.1.gets = 0 ∧
    (runClient thirdBurstFails 10 0 statsInfo.zero).2.1.Requests =
      ((lastCycle thirdBurstFails 10 (World.start 0) statsInfo.zero).2.1.gets : Int) ∧
    (lastCycle thirdBurstFails 10 (World.start 0) statsInfo.zero).2.1.gets = 2 :=
  ⟨by decide, by decide, by decide, by decide,
    (runClient_returns_request_error thirdCallFails 2 { code := 7 } 10 0
      (by decide) (by decide) (by decide) (by decide)).1,
    (runClient_returns_request_error thirdCallFails 2 { code := 7 } 10 0
      (by decide) (by decide) (by decide) (by decide)).2.2.2.1,
    by decide,
    (runClient_returns_request_error thirdBurstFails 2 { code := 7 } 10 0
      (by decide) (by decide) (by decide) (by decide)).2.2.2.1,
    by decide⟩

/-- C3 as stated fails: one worker of a run with duration 0 returns at once
with an empty record; the summary is printed and the average latency is the
division 0 / 0. -/
theorem mainAfterWait_divides_by_zero :
    (runClient cancelDuringOn 5 4 statsInfo.zero).2 =
      (statsInfo.zero, Outcome.returned none) ∧
    (mainTotal [statsInfo.zero]).Requests = 0 ∧
    mainAfterWait [statsInfo.zero] [none] 1000 =
      MainOutcome.summary statsInfo.zero
        { latency := { num := 0, den := 0 }, requests := 0,
          rate := { num := 0, den := 1000 },
          onAverage := { num := 0, den := 1 }, offAverage := { num := 0, den := 1 } } ∧
    (0 : Int) ∈ (mainReport (mainTotal [statsInfo.zero]) 1 1000).denominators ∧
    (mainReport (mainTotal []) 0 1000).denominators = [0, 1000, 0, 0] := by
  decide

/-- C3 (amended) on one worker with an empty record. -/
theorem mainAfterWait_unguarded_divisions_witness :
    (∀ x ∈ [(none : Option TransportError)], x = none) ∧
    ((mainTotal [statsInfo.zero]).Requests = 0 ∨ [statsInfo.zero] = []) ∧
    (mainReport (mainTotal [statsInfo.zero]) [statsInfo.zero].length 1000).latency =
      { num := (mainTotal [statsInfo.zero]).ExecutionTime, den := 0 } :=
  ⟨by decide, Or.inl (by decide),
    (mainAfterWait_unguarded_divisions [statsInfo.zero] [none] 1000 (by decide)
      (Or.inl (by decide))).2.1⟩

/-- C4 as stated fails: with an ON rate of 0 and one thread the start of
`main` does not fail and starts one worker; with no thread it does not fail
either. -/
theorem mainSpawn_zero_rate_spawns :
    (0 : Rat) ≤ 0 ∧ mainSpawn 1000 1 0 (4 / 5) = Startup.spawned 1 ∧
    (mainSpawn 1000 1 0 (4 / 5)).failed = false ∧
    (mainSpawn 1000 1 0 (4 / 5)).workers = 1 ∧
    (mainSpawn 1000 0 (3 / 10) (4 / 5)).failed = false := by
  refine ⟨le_refl 0, ?_, ?_, ?_, ?_⟩ <;> decide

/-- C4 (amended) on one thread with a negative OFF rate, on no thread, on a
negative number of threads and on more threads than can be allocated. -/
theorem mainSpawn_no_validation_witness :
    (1 : Int) ≤ 1 ∧ (1 : Int) ≤ ((1000 : Nat) : Int) ∧
    mainSpawn 1000 1 (3 / 10) (-1) = Startup.spawned (Int.toNat 1) ∧
    (0 : Int) < 1 ∧ (mainSpawn 1000 0 (3 / 10) (4 / 5)).workers = 0 ∧
    ((-2 : Int) < 0 ∨ ((1000 : Nat) : Int) < -2) ∧
    mainSpawn 1000 (-2) (3 / 10) (4 / 5) = Startup.panicked ∧
    mainSpawn 1000 1152921504606846976 (3 / 10) (4 / 5) = Startup.panicked :=
  ⟨by decide, by decide,
    ((mainSpawn_no_validation 1000 1 (3 / 10) (-1)).2.2.2.1 (by decide) (by decide)).1,
    by decide, (mainSpawn_no_validation 1000 0 (3 / 10) (4 / 5)).1 (by decide),
    Or.inl (by decide),
    (mainSpawn_no_validation 1000 (-2) (3 / 10) (4 / 5)).2.1 (Or.inl (by decide)),
    (mainSpawn_no_validation 1000 1152921504606846976 (3 / 10) (4 / 5)).2.1
      (Or.inr (by decide))⟩

/-- C5 as stated fails: with an ON duration of 0 and a clock that reads the
same instant twice, `doRequests` issues one request and returns (1, 0, nil). -/
theorem doRequests_zero_duration_issues :
    (0 : Int) ≤ 0 ∧ tieEnv.gap 1 = 0 ∧
    doRequests tieEnv 5 (World.start 0) 0 =
      ({ now := 4, reads := 5, gets := 1, onDraws := 0, offDraws := 0, slept := 0 },
        some (1, 0, none)) ∧
    (doRequests tieEnv 5 (World.start 0) 0).2 ≠ some (0, 0, none) ∧
    (runClientCycle tieEnv 5 (World.start 0) statsInfo.zero).2.1.Requests = 1 := by
  decide

/-- C5 (amended) on a negative ON duration and a clock that reads the same
instant twice. -/
theorem doRequests_nonpositive_duration_witness :
    (-3 : Int) ≤ 0 ∧ ((-3 : Int) < 0 ∨ 0 < negativeOnEnv.gap ((World.start 0).reads + 1)) ∧
    doRequests negativeOnEnv (4 + 1) (World.start 0) (-3) =
      ((timeNow negativeOnEnv (timeNow negativeOnEnv (World.start 0)).2).2,
        some (0, 0, none)) ∧
    (doRequests negativeOnEnv (4 + 1) (World.start 0) (-3)).1.gets = (World.start 0).gets :=
  ⟨by decide, Or.inl (by decide),
    (doRequests_nonpositive_duration negativeOnEnv 4 (World.start 0) (-3) statsInfo.zero
      (by decide) (Or.inl (by decide))).1,
    (doRequests_nonpositive_duration negativeOnEnv 4 (World.start 0) (-3) statsInfo.zero
      (by decide) (Or.inl (by decide))).2.1⟩

/-- C6 as stated fails: in `cancelDuringOn` the signal fires at instant 4,
inside the burst that runs from instant 1 to instant 14; the cycle still draws
an OFF duration of 5, adds it to OffTime and sleeps it. -/
theorem runClientCycle_enters_off_after_cancel :
    (World.start 0).now < cancelDuringOn.cancelAt ∧
    cancelDuringOn.cancelAt ≤ (burstEnd cancelDuringOn 10 (World.start 0)).now ∧
    (runClientCycle cancelDuringOn 10 (World.start 0) statsInfo.zero).2.2 = Step.next ∧
    (runClientCycle cancelDuringOn 10 (World.start 0) statsInfo.zero).1.offDraws = 1 ∧
    (runClientCycle cancelDuringOn 10 (World.start 0) statsInfo.zero).2.1.OffTime = 5 ∧
    (runClientCycle cancelDuringOn 10 (World.start 0) statsInfo.zero).1.slept = 5 ∧
    (runClientCycle cancelDuringOn 10 (World.start 0) statsInfo.zero).1.offDraws ≠
      (World.start 0).offDraws ∧
    (runClientCycle cancelDuringOn 10 (World.start 0) statsInfo.zero).2.1.OffTime ≠
      statsInfo.zero.OffTime := by
  decide

/-- C6 (amended) on `cancelDuringOn`. -/
theorem runClientCycle_off_after_cancel_witness :
    (World.start 0).now < cancelDuringOn.cancelAt ∧
    cancelDuringOn.cancelAt ≤ (burstEnd cancelDuringOn 10 (World.start 0)).now ∧
    (runClientCycle cancelDuringOn 10 (World.start 0) statsInfo.zero).2.2 = Step.next ∧
    (runClientCycle cancelDuringOn 10 (World.start 0) statsInfo.zero).1.offDraws =
      (World.start 0).offDraws + 1 ∧
    (runClientCycle cancelDuringOn 10 (World.start 0) statsInfo.zero).2.1.OffTime =
      wrap64 (statsInfo.zero.OffTime + cancelDuringOn.offDraw (World.start 0).offDraws) :=
  ⟨by decide, by decide, by decide,
    (runClientCycle_off_after_cancel cancelDuringOn 10 0 (World.start 0) statsInfo.zero
      (by decide) (by decide) (by decide)).2.1,
    (runClientCycle_off_after_cancel cancelDuringOn 10 0 (World.start 0) statsInfo.zero
      (by decide) (by decide) (by decide)).2.2.1⟩

/-- C7 as stated fails: in `cancelDuringOff` the sleep of 5 ns begins at
instant 14 and the signal fires at instant 16; the wait ends at instant 19,
not at instant 16. -/
theorem runClientCycle_sleep_outlasts_cancel :
    (runClientCycle cancelDuringOff 10 (World.start 0) statsInfo.zero).2.2 = Step.next ∧
    (burstEnd cancelDuringOff 10 (World.start 0)).now = 14 ∧
    cancelDuringOff.offDraw 0 = 5 ∧ cancelDuringOff.cancelAt = 16 ∧
    (runClientCycle cancelDuringOff 10 (World.start 0) statsInfo.zero).1.now = 19 ∧
    (runClientCycle cancelDuringOff 10 (World.start 0) statsInfo.zero).1.now ≠
      cancelDuringOff.cancelAt := by
  decide

/-- C7 (amended) on `cancelDuringOff`. -/
theorem runClientCycle_sleep_runs_full_witness :
    (runClientCycle cancelDuringOff 10 (World.start 0) statsInfo.zero).2.2 = Step.next ∧
    (burstEnd cancelDuringOff 10 (World.start 0)).now < cancelDuringOff.cancelAt ∧
    cancelDuringOff.cancelAt <
      (burstEnd cancelDuringOff 10 (World.start 0)).now +
        cancelDuringOff.offDraw (World.start 0).offDraws ∧
    (runClientCycle cancelDuringOff 10 (World.start 0) statsInfo.zero).1.now =
      (burstEnd cancelDuringOff 10 (World.start 0)).now +
        cancelDuringOff.offDraw (World.start 0).offDraws ∧
    cancelDuringOff.cancelAt <
      (runClientCycle cancelDuringOff 10 (World.start 0) statsInfo.zero).1.now :=
  ⟨by decide, by decide, by decide,
    (runClientCycle_sleep_runs_full cancelDuringOff 10 0 (World.start 0) statsInfo.zero
      (by decide) (by decide) (by decide)).1,
    (runClientCycle_sleep_runs_full cancelDuringOff 10 0 (World.start 0) statsInfo.zero
      (by decide) (by decide) (by decide)).2.2.1⟩

/-- C8 as stated fails: with an ON rate of 2^-50 > 0, an OFF rate of 1/2 > 0,
samples that are not negative and a clock that never goes back, the ON sample
2^50 * 10^7 ns does not fit a duration, the drawn ON duration is the smallest
`int64` and the first cycle lowers OnTime from 0 to that value. -/
theorem runClientCycle_lowers_on_time :
    (0 : Rat) < 1 / 1125899906842624 ∧ (0 : Rat) < 1 / 2 ∧
    (0 : Rat) ≤ unitSource.onVariate 0 ∧ (0 : Rat) ≤ unitSource.offVariate 0 ∧
    (Env.ofRates 10000000 (1 / 1125899906842624) (1 / 2) unitSource).onDraw 0 =
      -9223372036854775808 ∧
    (runClientCycle (Env.ofRates 10000000 (1 / 1125899906842624) (1 / 2) unitSource) 5
      (World.start 0) statsInfo.zero).2.2 = Step.next ∧
    (runClientCycle (Env.ofRates 10000000 (1 / 1125899906842624) (1 / 2) unitSource) 5
      (World.start 0) statsInfo.zero).2.1.OnTime = -9223372036854775808 ∧
    (runClientCycle (Env.ofRates 10000000 (1 / 1125899906842624) (1 / 2) unitSource) 5
      (World.start 0) statsInfo.zero).2.1.OnTime < statsInfo.zero.OnTime ∧
    ¬ statsInfo.le statsInfo.zero
      (runClientCycle (Env.ofRates 10000000 (1 / 1125899906842624) (1 / 2) unitSource) 5
        (World.start 0) statsInfo.zero).2.1 := by
  decide!

/-- C8 (amended) on an ON rate of 1/2 and an OFF rate of 2 with variates of
1: ON samples of 20 ms, OFF samples of 5 ms, requests of 3 ms. -/
theorem runClient_fields_nondecreasing_witness :
    (0 : Rat) < 1 / 2 ∧ (0 : Rat) < 2 ∧
    (∀ k, 0 ≤ steadySource.onVariate k ∧ 0 ≤ steadySource.offVariate k) ∧
    (∀ k, steadySource.onVariate k / (1 / 2) * 10000000 < 9223372036854775808 ∧
      steadySource.offVariate k / 2 * 10000000 < 9223372036854775808) ∧
    cycleFits (Env.ofRates 100000000 (1 / 2) 2 steadySource) 10 (World.start 0)
      statsInfo.zero ∧
    statsInfo.le statsInfo.zero
      (runClientCycle (Env.ofRates 100000000 (1 / 2) 2 steadySource) 10 (World.start 0)
        statsInfo.zero).2.1 ∧
    runFits (Env.ofRates 100000000 (1 / 2) 2 steadySource) 10 (World.start 0)
      statsInfo.zero = true ∧
    statsInfo.le statsInfo.zero
      (runClientLoop (Env.ofRates 100000000 (1 / 2) 2 steadySource) 10 (World.start 0)
        statsInfo.zero).2.1 :=
  ⟨by norm_num, by norm_num,
    fun _ => by norm_num [steadySource], fun _ => by norm_num [steadySource],
    by decide!,
    (runClient_fields_nondecreasing 100000000 (1 / 2) 2 steadySource 10 (World.start 0)
      statsInfo.zero (by norm_num) (by norm_num) (fun _ => by norm_num [steadySource])
      (fun _ => by norm_num [steadySource])).2.1 (by decide!),
    by decide!,
    (runClient_fields_nondecreasing 100000000 (1 / 2) 2 steadySource 10 (World.start 0)
      statsInfo.zero (by norm_num) (by norm_num) (fun _ => by norm_num [steadySource])
      (fun _ => by norm_num [steadySource])).2.2.1 (by decide!)⟩

/-- C9 as stated fails: with the flag `-threads -1` no worker returns an
error, since none is started, and yet `main` neither prints the summary nor
exits with status 1: the allocation of the slice panics. -/
theorem clientMain_negative_threads_panics :
    mainSpawn 1000 negativeThreadsConfig.threads negativeThreadsConfig.onRate
      negativeThreadsConfig.offRate = Startup.panicked ∧
    clientMain 1000 negativeThreadsConfig (fun _ => steadySource) [] 10 0 1000 =
      MainOutcome.panicked ∧
    (∀ total report, clientMain 1000 negativeThreadsConfig (fun _ => steadySource) [] 10 0 1000 ≠
      MainOutcome.summary total report) ∧
    (∀ err, clientMain 1000 negativeThreadsConfig (fun _ => steadySource) [] 10 0 1000 ≠
      MainOutcome.exit1 err) := by
  have h : clientMain 1000 negativeThreadsConfig (fun _ => steadySource) [] 10 0 1000 =
      MainOutcome.panicked := by decide!
  refine ⟨by decide!, h, ?_, ?_⟩
  · intro total report
    rw [h]
    simp
  · intro err
    rw [h]
    simp

/-- C10 as stated fails: in the run of `tinyRateTwoCycles` the second cycle
starts with OnTime equal to the smallest `int64` and draws that same ON
duration; OnTime becomes 0, not the sum -2^64. -/
theorem runClientCycle_on_time_wraps :
    (runClientCycle (Env.ofRates 30000000 (1 / 1125899906842624) (1 / 2) unitSource) 5
      (World.start 0) statsInfo.zero).2.2 = Step.next ∧
    (runClientCycle (Env.ofRates 30000000 (1 / 1125899906842624) (1 / 2) unitSource) 5
      (World.start 0) statsInfo.zero).2.1 =
      { OnTime := -9223372036854775808, OffTime := 20000000, Requests := 0,
        ExecutionTime := 0 } ∧
    (runClientCycle (Env.ofRates 30000000 (1 / 1125899906842624) (1 / 2) unitSource) 5
      (World.start 0) statsInfo.zero).1 =
      { now := 20000002, reads := 2, gets := 0, onDraws := 1, offDraws := 1,
        slept := 20000000 } ∧
    (Env.ofRates 30000000 (1 / 1125899906842624) (1 / 2) unitSource).onDraw 1 =
      -9223372036854775808 ∧
    (runClientCycle (Env.ofRates 30000000 (1 / 1125899906842624) (1 / 2) unitSource) 5
      { now := 20000002, reads := 2, gets := 0, onDraws := 1, offDraws := 1,
        slept := 20000000 }
      { OnTime := -9223372036854775808, OffTime := 20000000, Requests := 0,
        ExecutionTime := 0 }).2.2 = Step.next ∧
    (runClientCycle (Env.ofRates 30000000 (1 / 1125899906842624) (1 / 2) unitSource) 5
      { now := 20000002, reads := 2, gets := 0, onDraws := 1, offDraws := 1,
        slept := 20000000 }
      { OnTime := -9223372036854775808, OffTime := 20000000, Requests := 0,
        ExecutionTime := 0 }).2.1.OnTime = 0 ∧
    (0 : Int) ≠ -9223372036854775808 + -9223372036854775808 ∧
    (workerRun tinyRateTwoCycles (fun _ => unitSource) 5 0 0).2 =
      ({ OnTime := 0, OffTime := 40000000, Requests := 0, ExecutionTime := 0 },
        Outcome.returned none) := by
  decide!

/-- C10 (amended) on the first cycle of `steadyEnv`: two requests of 3 ms each
in a burst of 20 ms, then a sleep of 5 ms. -/
theorem runClientCycle_wrapped_increments_witness :
    (runClientCycle steadyEnv 50 (World.start 0) statsInfo.zero).2.2 = Step.next ∧
    (runClientCycle steadyEnv 50 (World.start 0) statsInfo.zero).2.1 =
      { OnTime := 20000000, OffTime := 5000000, Requests := 2, ExecutionTime := 6 } ∧
    burstRequests steadyEnv 50 (World.start 0) = 2 ∧
    burstTime steadyEnv (World.start 0) 2 = 6 ∧
    inInt64 (statsInfo.zero.Requests + (burstRequests steadyEnv 50 (World.start 0) : Int)) ∧
    (runClientCycle steadyEnv 50 (World.start 0) statsInfo.zero).2.1.Requests =
      statsInfo.zero.Requests + (burstRequests steadyEnv 50 (World.start 0) : Int) ∧
    inInt64 (statsInfo.zero.ExecutionTime +
      burstTime steadyEnv (World.start 0) (burstRequests steadyEnv 50 (World.start 0))) ∧
    (runClientCycle steadyEnv 50 (World.start 0) statsInfo.zero).2.1.ExecutionTime =
      statsInfo.zero.ExecutionTime +
        burstTime steadyEnv (World.start 0) (burstRequests steadyEnv 50 (World.start 0)) :=
  ⟨by decide, by decide, by decide, by decide, by decide,
    (runClientCycle_wrapped_increments steadyEnv 50 (World.start 0) statsInfo.zero
      (by decide)).2.2.2.2.2.1 (by decide),
    by decide,
    (runClientCycle_wrapped_increments steadyEnv 50 (World.start 0) statsInfo.zero
      (by decide)).2.2.2.2.2.2.1 (by decide)⟩

/-- C9 (amended) on two workers: when both return nil the summary of the
total is printed; when the second fails on its first request, `main` exits
with status 1 on that error. -/
theorem clientMain_two_outcomes_witness :
    mainSpawn 1000 steadyConfig.threads steadyConfig.onRate steadyConfig.offRate =
      Startup.spawned 2 ∧
    (∀ i, i < 2 →
      (workerRun steadyConfig (fun _ => steadySource) 20 0 i).2.2 ≠ Outcome.running) ∧
    List.Perm [1, 0] (List.range 2) ∧
    (∀ i, i < 2 →
      (workerRun steadyConfig (fun _ => steadySource) 20 0 i).2.2 = Outcome.returned none) ∧
    (∃ total : statsInfo,
      clientMain 1000 steadyConfig (fun _ => steadySource) [1, 0] 20 0 120000000 =
        MainOutcome.summary total
          { latency := { num := total.ExecutionTime, den := total.Requests },
            requests := total.Requests,
            rate := { num := total.Requests, den := 120000000 },
            onAverage := { num := total.OnTime, den := ((2 : Nat) : Int) },
            offAverage := { num := total.OffTime, den := ((2 : Nat) : Int) } } ∧
      total.OnTime = wrap64 ((List.range 2).map
        (fun i => (workerRun steadyConfig (fun _ => steadySource) 20 0 i).2.1.OnTime)).sum ∧
      total.OffTime = wrap64 ((List.range 2).map
        (fun i => (workerRun steadyConfig (fun _ => steadySource) 20 0 i).2.1.OffTime)).sum ∧
      total.Requests = wrap64 ((List.range 2).map
        (fun i => (workerRun steadyConfig (fun _ => steadySource) 20 0 i).2.1.Requests)).sum ∧
      total.ExecutionTime = wrap64 ((List.range 2).map
        (fun i =>
          (workerRun steadyConfig (fun _ => steadySource) 20 0 i).2.1.ExecutionTime)).sum) ∧
    clientMain 1000 steadyConfig (fun _ => steadySource) [1, 0] 20 0 120000000 =
      MainOutcome.summary
        { OnTime := 160000000, OffTime := 40000000, Requests := 16, ExecutionTime := 48 }
        { latency := { num := 48, den := 16 }, requests := 16,
          rate := { num := 16, den := 120000000 },
          onAverage := { num := 160000000, den := 2 },
          offAverage := { num := 40000000, den := 2 } } ∧
    (∀ i, i < 2 →
      (workerRun steadyConfig (fun i => if i = 1 then failingSource else steadySource)
        20 0 i).2.2 ≠ Outcome.running) ∧
    (∃ i, i < 2 ∧
      (workerRun steadyConfig (fun i => if i = 1 then failingSource else steadySource)
        20 0 i).2.2 ≠ Outcome.returned none) ∧
    (∃ i err, i < 2 ∧
      (workerRun steadyConfig (fun i => if i = 1 then failingSource else steadySource)
        20 0 i).2.2 = Outcome.returned (some err) ∧
      clientMain 1000 steadyConfig (fun i => if i = 1 then failingSource else steadySource)
        [1, 0] 20 0 120000000 = MainOutcome.exit1 err) ∧
    clientMain 1000 steadyConfig (fun i => if i = 1 then failingSource else steadySource)
      [1, 0] 20 0 120000000 = MainOutcome.exit1 { code := 7 } :=
  ⟨by decide!, by decide!, List.Perm.swap 0 1 [], by decide!,
    (clientMain_two_outcomes 1000 steadyConfig (fun _ => steadySource) [1, 0] 20 0 120000000 2
      (by decide!) (by decide!) (List.Perm.swap 0 1 [])).1 (by decide!),
    by decide!, by decide!, ⟨1, by decide, by decide!⟩,
    (clientMain_two_outcomes 1000 steadyConfig
      (fun i => if i = 1 then failingSource else steadySource) [1, 0] 20 0 120000000 2
      (by decide!) (by decide!) (List.Perm.swap 0 1 [])).2 ⟨1, by decide, by decide!⟩,
    by decide!⟩

end SchedBench
